import Mathlib

/-!
Verification development for the `fastapi-RED-metrics` repository.

The repository's measurable core is the HTTP metrics instrumentation layer in
`app/helper/metrics.py` (class `PrometheusMetricsMiddleware`, used by `main.py`)
and its prototype variant `app/helper/metrics_scratch.py`
(class `REDMetricsMiddleware`).  Both are shallowly embedded below:

* paths are modelled as `List Char` (ASCII; Python's `re` character classes
  `[0-9a-fA-F]` and `\d` are modelled by their ASCII meaning, and Python's
  `str.lower` by `Char.toLower`, which agrees on ASCII input);
* the Prometheus instruments (two counters, one histogram, one gauge) are
  modelled as functions from label tuples to their current value;
* each middleware `dispatch` is a pure state transformer that also returns
  the response delivered to the caller (`Except` models a raised exception)
  and the list of metric operations performed, in order;
* since the Python code installs no exception handler around the
  `prometheus_client` calls, the embedding lets each recording operation
  optionally raise (`RecBehavior`), mirroring what the interpreter would do.
-/

/-! ## Path normalizer of `metrics.py` (`PrometheusMetricsMiddleware._normalize_path`)

Python source:
  pattern = r"/[0-9a-fA-F]{8}-[0-9a-fA-F]{4}-[0-9a-fA-F]{4}-[0-9a-fA-F]{4}-[0-9a-fA-F]{12}"
  path = re.sub(pattern, "/:id", path)

The pattern is a fixed-length (37 characters) alternation-free regex, so
`re.sub` is exactly: scan left to right; at each position, if the next 37
characters are `/` followed by the 8-4-4-4-12 hex shape, emit `/:id` and
continue after the match, otherwise copy one character. -/

/-- The regex class `[0-9a-fA-F]`. -/
def hexD (c : Char) : Bool :=
  ('0' ≤ c && c ≤ '9') || ('a' ≤ c && c ≤ 'f') || ('A' ≤ c && c ≤ 'F')

/-- The literal `-` of the pattern. -/
def dashD (c : Char) : Bool := c = '-'

/-- The 36 character classes after the leading `/` of the UUID pattern:
8 hex, dash, 4 hex, dash, 4 hex, dash, 4 hex, dash, 12 hex. -/
def uuidShape : List (Char → Bool) :=
  List.replicate 8 hexD ++ [dashD] ++ List.replicate 4 hexD ++ [dashD] ++
    List.replicate 4 hexD ++ [dashD] ++ List.replicate 4 hexD ++ [dashD] ++
    List.replicate 12 hexD

/-- Does `l` start with characters matching the given list of classes? -/
def matchesShape : List (Char → Bool) → List Char → Bool
  | [], _ => true
  | _ :: _, [] => false
  | p :: ps, c :: cs => p c && matchesShape ps cs

/-- Left-to-right scanner for `re.sub` with the fixed-length UUID pattern.
The first argument is the number of already-matched characters still to be
skipped (re.sub resumes scanning after the end of a match). -/
def goUUID : Nat → List Char → List Char
  | _, [] => []
  | k+1, _ :: rest => goUUID k rest
  | 0, c :: rest =>
    if c = '/' && matchesShape uuidShape rest then
      '/' :: ':' :: 'i' :: 'd' :: goUUID 36 rest
    else
      c :: goUUID 0 rest

namespace Prom

/-- `PrometheusMetricsMiddleware._normalize_path` from `app/helper/metrics.py`. -/
def normalize_path (path : List Char) : List Char := goUUID 0 path

end Prom

/-! ## Path normalizer of `metrics_scratch.py` (`REDMetricsMiddleware._normalize_path`)

Python source:
  return re.sub(r"/[^/]*\d[^/]*", "/:id", path)

A match must start at a `/`; greedy `[^/]*` on both sides of `\d` means the
match is `/` followed by the whole maximal slash-free run, provided that run
contains a digit.  `re.sub` resumes after the run, i.e. at the next `/`. -/

/-- Left-to-right scanner for `re.sub` with the digit-segment pattern.  The
Bool is true while skipping the remainder of a run already replaced by `:id`
(scanning resumes at the next `/`). -/
def goDig : Bool → List Char → List Char
  | _, [] => []
  | inRepl, c :: rest =>
    if c = '/' then
      if (rest.takeWhile (fun x => x != '/')).any Char.isDigit then
        '/' :: ':' :: 'i' :: 'd' :: goDig true rest
      else
        '/' :: goDig false rest
    else if inRepl then goDig true rest
    else c :: goDig false rest

namespace RED

/-- `REDMetricsMiddleware._normalize_path` from `app/helper/metrics_scratch.py`. -/
def normalize_path (path : List Char) : List Char := goDig false path

end RED

/-! ### Basic facts about the UUID shape and the scanners -/

lemma uuidShape_no_slash : ∀ p ∈ uuidShape, p '/' = false := by
  intro p hp
  simp only [uuidShape, List.mem_append, List.mem_singleton] at hp
  rcases hp with ((((((((h | h) | h) | h) | h) | h) | h) | h) | h) <;>
    first
      | (rw [List.eq_of_mem_replicate h]; decide)
      | (rw [h]; decide)

lemma uuidShape_length : uuidShape.length = 36 := by decide

lemma matchesShape_length_le : ∀ (ps : List (Char → Bool)) (l : List Char),
    matchesShape ps l = true → ps.length ≤ l.length := by
  intro ps
  induction ps with
  | nil => intro l _; simp
  | cons p ps ih =>
    intro l h
    cases l with
    | nil => simp [matchesShape] at h
    | cons c cs =>
      simp only [matchesShape, Bool.and_eq_true] at h
      simpa using ih cs h.2

lemma matchesShape_mem : ∀ (ps : List (Char → Bool)) (l : List Char),
    matchesShape ps l = true → l.length ≤ ps.length →
    ∀ c ∈ l, ∃ p ∈ ps, p c = true := by
  intro ps
  induction ps with
  | nil =>
    intro l _ hlen c hc
    have : l = [] := List.eq_nil_of_length_eq_zero (Nat.le_zero.mp hlen)
    subst this; simp at hc
  | cons p ps ih =>
    intro l h hlen c hc
    cases l with
    | nil => simp at hc
    | cons a as =>
      simp only [matchesShape, Bool.and_eq_true] at h
      rcases List.mem_cons.mp hc with rfl | hc
      · exact ⟨p, List.mem_cons_self _ _, h.1⟩
      · obtain ⟨q, hq, hqc⟩ := ih as h.2 (by simpa using hlen) c hc
        exact ⟨q, List.mem_cons_of_mem _ hq, hqc⟩

lemma matchesShape_append_slash (ps : List (Char → Bool))
    (hps : ∀ p ∈ ps, p '/' = false) :
    ∀ (l t : List Char), matchesShape ps (l ++ '/' :: t) = matchesShape ps l := by
  induction ps with
  | nil => intro l t; rfl
  | cons p ps ih =>
    intro l t
    cases l with
    | nil =>
      simp only [List.nil_append, matchesShape, hps p (List.mem_cons_self _ _),
        Bool.false_and]
    | cons c cs =>
      simp only [List.cons_append, matchesShape, List.append_eq,
        ih (fun q hq => hps q (List.mem_cons_of_mem _ hq)) cs t]

/-- Matching against a slash-free segment followed by the rest of a path is
the same as matching against the segment alone (the path's next character,
if any, is `/`, which every class of the UUID shape rejects). -/
lemma matchesShape_uuid_seg (s t : List Char)
    (ht : t = [] ∨ ∃ u, t = '/' :: u) :
    matchesShape uuidShape (s ++ t) = matchesShape uuidShape s := by
  rcases ht with rfl | ⟨u, rfl⟩
  · rw [List.append_nil]
  · exact matchesShape_append_slash uuidShape uuidShape_no_slash s u

/-! Step equations for `goUUID`. -/

lemma goUUID_nil (k : Nat) : goUUID k [] = [] := by cases k <;> rfl

lemma goUUID_skip (k : Nat) (c : Char) (l : List Char) :
    goUUID (k + 1) (c :: l) = goUUID k l := rfl

lemma goUUID_match {l : List Char} (h : matchesShape uuidShape l = true) :
    goUUID 0 ('/' :: l) = '/' :: ':' :: 'i' :: 'd' :: goUUID 36 l := by
  simp [goUUID, h]

lemma goUUID_nomatch {l : List Char} (h : matchesShape uuidShape l = false) :
    goUUID 0 ('/' :: l) = '/' :: goUUID 0 l := by
  simp [goUUID, h]

lemma goUUID_cons_ne {c : Char} (hc : c ≠ '/') (l : List Char) :
    goUUID 0 (c :: l) = c :: goUUID 0 l := by
  simp [goUUID, hc]

lemma goUUID_drop : ∀ (k : Nat) (l : List Char), goUUID k l = goUUID 0 (l.drop k) := by
  intro k
  induction k with
  | zero => intro l; rfl
  | succ k ih =>
    intro l
    cases l with
    | nil => rw [goUUID_nil, List.drop_nil, goUUID_nil]
    | cons c rest => rw [goUUID_skip, ih, List.drop_succ_cons]

lemma goUUID_pass : ∀ (x l : List Char), '/' ∉ x →
    goUUID 0 (x ++ l) = x ++ goUUID 0 l := by
  intro x
  induction x with
  | nil => intro l _; rfl
  | cons c cs ih =>
    intro l hx
    have hc : c ≠ '/' := fun h => hx (h ▸ List.mem_cons_self _ _)
    rw [List.cons_append, goUUID_cons_ne hc, ih l (fun h => hx (List.mem_cons_of_mem _ h)),
      List.cons_append]

/-- The scanner cannot create a new UUID match where none was: if a list does
not start with the UUID shape, neither does its scanned image. -/
lemma matchesShape_goUUID : ∀ (l : List Char) (ps : List (Char → Bool)),
    (∀ p ∈ ps, p '/' = false) →
    matchesShape ps (goUUID 0 l) = matchesShape ps l := by
  intro l
  induction l with
  | nil => intro ps _; rfl
  | cons c rest ih =>
    intro ps hps
    by_cases hc : c = '/'
    · subst hc
      cases ps with
      | nil => rfl
      | cons p ps =>
        by_cases hm : matchesShape uuidShape rest = true
        · rw [goUUID_match hm]
          simp [matchesShape, hps p (List.mem_cons_self _ _)]
        · rw [goUUID_nomatch (Bool.eq_false_iff.mpr hm)]
          simp [matchesShape, hps p (List.mem_cons_self _ _)]
    · rw [goUUID_cons_ne hc]
      cases ps with
      | nil => rfl
      | cons p ps =>
        simp only [matchesShape,
          ih ps (fun q hq => hps q (List.mem_cons_of_mem _ hq))]

lemma matchesShape_uuid_colon (xs : List Char) :
    matchesShape uuidShape (':' :: xs) = false := by
  have h : uuidShape = hexD :: uuidShape.tail := rfl
  rw [h, matchesShape]
  have : hexD ':' = false := by decide
  rw [this, Bool.false_and]

/-- One `re.sub` pass with the UUID pattern is idempotent. -/
lemma goUUID_idem (l : List Char) : goUUID 0 (goUUID 0 l) = goUUID 0 l := by
  have key : ∀ (n : Nat) (l : List Char), l.length ≤ n →
      goUUID 0 (goUUID 0 l) = goUUID 0 l := by
    intro n
    induction n with
    | zero =>
      intro l hl
      have : l = [] := List.eq_nil_of_length_eq_zero (Nat.le_zero.mp hl)
      subst this; rfl
    | succ n ih =>
      intro l hl
      cases l with
      | nil => rfl
      | cons c rest =>
        have hrest : rest.length ≤ n := by
          simp only [List.length_cons] at hl; omega
        by_cases hc : c = '/'
        · subst hc
          by_cases hm : matchesShape uuidShape rest = true
          · rw [goUUID_match hm, goUUID_drop 36 rest]
            have hdrop : (rest.drop 36).length ≤ n := by
              rw [List.length_drop]; omega
            rw [goUUID_nomatch (matchesShape_uuid_colon _),
              goUUID_cons_ne (by decide : (':' : Char) ≠ '/'),
              goUUID_cons_ne (by decide : ('i' : Char) ≠ '/'),
              goUUID_cons_ne (by decide : ('d' : Char) ≠ '/'),
              ih (rest.drop 36) hdrop]
          · have hm' : matchesShape uuidShape rest = false := Bool.eq_false_iff.mpr hm
            rw [goUUID_nomatch hm',
              goUUID_nomatch (by rw [matchesShape_goUUID rest uuidShape uuidShape_no_slash]; exact hm'),
              ih rest hrest]
        · rw [goUUID_cons_ne hc, goUUID_cons_ne hc, ih rest hrest]
  exact key l.length l le_rfl

example : Prom.normalize_path ("/api/v1/products/15ca8c18-43d4-4da3-ad14-2dc127365b04".toList)
    = "/api/v1/products/:id".toList := by decide
example : Prom.normalize_path ("/api/v1/products/123".toList) = "/api/v1/products/123".toList := by decide
example : Prom.normalize_path ("/a/15ca8c18-43d4-4da3-ad14-2dc127365b04Z".toList)
    = "/a/:idZ".toList := by decide
example : RED.normalize_path ("/api/v1/products/15ca8c18-43d4-4da3-ad14-2dc127365b04".toList)
    = "/api/:id/products/:id".toList := by decide
example : RED.normalize_path ("/api/version/x123y/end".toList) = "/api/version/:id/end".toList := by decide
example : RED.normalize_path ("/metrics".toList) = "/metrics".toList := by decide

/-! ### Step equations and invariants for `goDig` -/

lemma goDig_nil (b : Bool) : goDig b [] = [] := rfl

lemma goDig_slash_digit {l : List Char} (b : Bool)
    (h : (l.takeWhile (fun x => x != '/')).any Char.isDigit = true) :
    goDig b ('/' :: l) = '/' :: ':' :: 'i' :: 'd' :: goDig true l := by
  simp [goDig, h]

lemma goDig_slash_nodigit {l : List Char} (b : Bool)
    (h : (l.takeWhile (fun x => x != '/')).any Char.isDigit = false) :
    goDig b ('/' :: l) = '/' :: goDig false l := by
  simp [goDig, h]

lemma goDig_cons_ne {c : Char} (hc : c ≠ '/') (l : List Char) :
    goDig false (c :: l) = c :: goDig false l := by
  simp [goDig, hc]

lemma goDig_skip_ne {c : Char} (hc : c ≠ '/') (l : List Char) :
    goDig true (c :: l) = goDig true l := by
  simp [goDig, hc]

lemma goDig_skip_slash (l : List Char) : goDig true ('/' :: l) = goDig false ('/' :: l) := by
  by_cases h : (l.takeWhile (fun x => x != '/')).any Char.isDigit = true
  · rw [goDig_slash_digit true h, goDig_slash_digit false h]
  · have h' := Bool.eq_false_iff.mpr h
    rw [goDig_slash_nodigit true h', goDig_slash_nodigit false h']

/-- In skipping mode the scanner just discards up to the next `/`. -/
lemma goDig_true_eq : ∀ l : List Char,
    goDig true l = goDig false (l.dropWhile (fun x => x != '/')) := by
  intro l
  induction l with
  | nil => rfl
  | cons c rest ih =>
    by_cases hc : c = '/'
    · subst hc
      rw [List.dropWhile_cons]
      simp only [bne_self_eq_false, Bool.false_eq_true, if_false]
      exact goDig_skip_slash rest
    · rw [goDig_skip_ne hc, List.dropWhile_cons]
      simp only [bne_iff_ne, ne_eq, hc, not_false_eq_true, if_true]
      exact ih

lemma goDig_pass : ∀ (x l : List Char), '/' ∉ x →
    goDig false (x ++ l) = x ++ goDig false l := by
  intro x
  induction x with
  | nil => intro l _; rfl
  | cons c cs ih =>
    intro l hx
    have hc : c ≠ '/' := fun h => hx (h ▸ List.mem_cons_self _ _)
    rw [List.cons_append, goDig_cons_ne hc, ih l (fun h => hx (List.mem_cons_of_mem _ h)),
      List.cons_append]

lemma goDig_skip_pass : ∀ (x l : List Char), '/' ∉ x →
    goDig true (x ++ l) = goDig true l := by
  intro x
  induction x with
  | nil => intro l _; rfl
  | cons c cs ih =>
    intro l hx
    have hc : c ≠ '/' := fun h => hx (h ▸ List.mem_cons_self _ _)
    rw [List.cons_append, goDig_skip_ne hc, ih l (fun h => hx (List.mem_cons_of_mem _ h))]

/-- The first character surviving `dropWhile (· != '/')` is a slash. -/
lemma dropWhile_slash_head : ∀ (l : List Char),
    l.dropWhile (fun x => x != '/') = [] ∨
      ∃ u, l.dropWhile (fun x => x != '/') = '/' :: u := by
  intro l
  induction l with
  | nil => exact Or.inl rfl
  | cons c rest ih =>
    by_cases hc : c = '/'
    · subst hc
      right
      refine ⟨rest, ?_⟩
      rw [List.dropWhile_cons]
      simp
    · rw [List.dropWhile_cons]
      simp only [bne_iff_ne, ne_eq, hc, not_false_eq_true, if_true]
      exact ih

/-- The scanned image of a list that is empty or starts with `/` again is
empty or starts with `/`; hence its leading slash-free run is empty. -/
lemma takeWhile_goDig_after_slash (l : List Char)
    (hl : l = [] ∨ ∃ u, l = '/' :: u) :
    (goDig false l).takeWhile (fun x => x != '/') = [] := by
  rcases hl with rfl | ⟨u, rfl⟩
  · rfl
  · by_cases h : (u.takeWhile (fun x => x != '/')).any Char.isDigit = true
    · rw [goDig_slash_digit false h, List.takeWhile_cons]
      simp
    · rw [goDig_slash_nodigit false (Bool.eq_false_iff.mpr h), List.takeWhile_cons]
      simp

/-- If the leading slash-free run contains no digit, scanning preserves it. -/
lemma takeWhile_goDig : ∀ l : List Char,
    (l.takeWhile (fun x => x != '/')).any Char.isDigit = false →
    (goDig false l).takeWhile (fun x => x != '/') = l.takeWhile (fun x => x != '/') := by
  intro l
  induction l with
  | nil => intro _; rfl
  | cons c rest ih =>
    intro h
    by_cases hc : c = '/'
    · subst hc
      rw [takeWhile_goDig_after_slash ('/' :: rest) (Or.inr ⟨rest, rfl⟩),
        List.takeWhile_cons]
      simp
    · rw [List.takeWhile_cons] at h
      simp only [bne_iff_ne, ne_eq, hc, not_false_eq_true, if_true, List.any_cons,
        Bool.or_eq_false_iff] at h
      rw [goDig_cons_ne hc, List.takeWhile_cons, List.takeWhile_cons]
      simp only [bne_iff_ne, ne_eq, hc, not_false_eq_true, if_true, List.cons.injEq,
        true_and]
      exact ih h.2

lemma dropWhile_length_le : ∀ (p : Char → Bool) (l : List Char),
    (l.dropWhile p).length ≤ l.length := by
  intro p l
  induction l with
  | nil => simp
  | cons c rest ih =>
    rw [List.dropWhile_cons]
    by_cases h : p c = true
    · simp only [h, if_true, List.length_cons]
      omega
    · simp [h]

/-- One `re.sub` pass with the digit-segment pattern is idempotent. -/
lemma goDig_idem (l : List Char) : goDig false (goDig false l) = goDig false l := by
  have key : ∀ (n : Nat) (l : List Char), l.length ≤ n →
      goDig false (goDig false l) = goDig false l := by
    intro n
    induction n with
    | zero =>
      intro l hl
      have : l = [] := List.eq_nil_of_length_eq_zero (Nat.le_zero.mp hl)
      subst this; rfl
    | succ n ih =>
      intro l hl
      cases l with
      | nil => rfl
      | cons c rest =>
        have hrest : rest.length ≤ n := by
          simp only [List.length_cons] at hl; omega
        by_cases hc : c = '/'
        · subst hc
          by_cases hd : (rest.takeWhile (fun x => x != '/')).any Char.isDigit = true
          · rw [goDig_slash_digit false hd, goDig_true_eq rest]
            have hdrop : (rest.dropWhile (fun x => x != '/')).length ≤ n :=
              le_trans (dropWhile_length_le _ rest) hrest
            have hseg : ((':' :: 'i' :: 'd' ::
                goDig false (rest.dropWhile (fun x => x != '/'))).takeWhile
                  (fun x => x != '/')).any Char.isDigit = false := by
              rw [List.takeWhile_cons, List.takeWhile_cons, List.takeWhile_cons]
              simp only [show ((':' : Char) != '/') = true by decide,
                show (('i' : Char) != '/') = true by decide,
                show (('d' : Char) != '/') = true by decide, if_true]
              rw [takeWhile_goDig_after_slash _ (dropWhile_slash_head rest)]
              decide
            rw [goDig_slash_nodigit false hseg,
              goDig_cons_ne (by decide : (':' : Char) ≠ '/'),
              goDig_cons_ne (by decide : ('i' : Char) ≠ '/'),
              goDig_cons_ne (by decide : ('d' : Char) ≠ '/'),
              ih _ hdrop]
          · have hd' := Bool.eq_false_iff.mpr hd
            rw [goDig_slash_nodigit false hd',
              goDig_slash_nodigit false (by rw [takeWhile_goDig rest hd']; exact hd'),
              ih rest hrest]
        · rw [goDig_cons_ne hc, goDig_cons_ne hc, ih rest hrest]
  exact key l.length l le_rfl

/-! ### Segment-level semantics of the two normalizers

A request path is `/seg1/seg2/.../segn` with slash-free segments.  `joinSlash`
rebuilds such a path; the two lemmas below characterise each normalizer as a
per-segment map on such paths. -/

def joinSlash : List (List Char) → List Char
  | [] => []
  | s :: rest => '/' :: s ++ joinSlash rest

/-- Action of the `metrics.py` normalizer on a single segment: a segment
starting with the 36-character UUID shape has that shape replaced by `:id`
(keeping whatever follows it); other segments are untouched. -/
def uuidSegMap (s : List Char) : List Char :=
  if matchesShape uuidShape s then ':' :: 'i' :: 'd' :: s.drop 36 else s

/-- Action of the `metrics_scratch.py` normalizer on a single segment: a
segment containing a digit becomes `:id`; other segments are untouched. -/
def digitSegMap (s : List Char) : List Char :=
  if s.any Char.isDigit then [':', 'i', 'd'] else s

lemma joinSlash_shape : ∀ segs : List (List Char),
    joinSlash segs = [] ∨ ∃ u, joinSlash segs = '/' :: u := by
  intro segs
  cases segs with
  | nil => exact Or.inl rfl
  | cons s rest => exact Or.inr ⟨s ++ joinSlash rest, rfl⟩

lemma takeWhile_seg (s t : List Char) (hs : '/' ∉ s)
    (ht : t = [] ∨ ∃ u, t = '/' :: u) :
    (s ++ t).takeWhile (fun x => x != '/') = s := by
  induction s with
  | nil =>
    rcases ht with rfl | ⟨u, rfl⟩
    · rfl
    · rw [List.nil_append, List.takeWhile_cons]; simp
  | cons c cs ih =>
    have hc : c ≠ '/' := fun h => hs (h ▸ List.mem_cons_self _ _)
    rw [List.cons_append, List.takeWhile_cons]
    simp only [bne_iff_ne, ne_eq, hc, not_false_eq_true, if_true, List.cons.injEq, true_and]
    exact ih (fun h => hs (List.mem_cons_of_mem _ h))

/-- `PrometheusMetricsMiddleware._normalize_path`, segment by segment. -/
lemma goUUID_joinSlash : ∀ segs : List (List Char), (∀ s ∈ segs, '/' ∉ s) →
    goUUID 0 (joinSlash segs) = joinSlash (segs.map uuidSegMap) := by
  intro segs
  induction segs with
  | nil => intro _; rfl
  | cons s rest ih =>
    intro h
    have hs : '/' ∉ s := h s (List.mem_cons_self _ _)
    have hrest : ∀ u ∈ rest, '/' ∉ u := fun u hu => h u (List.mem_cons_of_mem _ hu)
    have hmeq : matchesShape uuidShape (s ++ joinSlash rest) = matchesShape uuidShape s :=
      matchesShape_uuid_seg s (joinSlash rest) (joinSlash_shape rest)
    show goUUID 0 ('/' :: (s ++ joinSlash rest)) = joinSlash (uuidSegMap s :: rest.map uuidSegMap)
    by_cases hm : matchesShape uuidShape s = true
    · have hlen : 36 ≤ s.length := by
        have := matchesShape_length_le uuidShape s hm
        rwa [uuidShape_length] at this
      rw [goUUID_match (hmeq.trans hm), goUUID_drop,
        List.drop_append_of_le_length hlen,
        goUUID_pass (s.drop 36) (joinSlash rest)
          (fun hmem => hs (List.mem_of_mem_drop hmem)),
        ih hrest]
      show _ = '/' :: (uuidSegMap s ++ joinSlash (rest.map uuidSegMap))
      rw [uuidSegMap, if_pos hm]
      simp
    · have hm' : matchesShape uuidShape s = false := Bool.eq_false_iff.mpr hm
      rw [goUUID_nomatch (by rw [hmeq]; exact hm'), goUUID_pass s (joinSlash rest) hs, ih hrest]
      show _ = '/' :: (uuidSegMap s ++ joinSlash (rest.map uuidSegMap))
      rw [uuidSegMap, if_neg hm]

/-- `REDMetricsMiddleware._normalize_path`, segment by segment. -/
lemma goDig_joinSlash : ∀ segs : List (List Char), (∀ s ∈ segs, '/' ∉ s) →
    goDig false (joinSlash segs) = joinSlash (segs.map digitSegMap) := by
  intro segs
  induction segs with
  | nil => intro _; rfl
  | cons s rest ih =>
    intro h
    have hs : '/' ∉ s := h s (List.mem_cons_self _ _)
    have hrest : ∀ u ∈ rest, '/' ∉ u := fun u hu => h u (List.mem_cons_of_mem _ hu)
    have hseg : ((s ++ joinSlash rest).takeWhile (fun x => x != '/')) = s :=
      takeWhile_seg s (joinSlash rest) hs (joinSlash_shape rest)
    show goDig false ('/' :: (s ++ joinSlash rest)) = joinSlash (digitSegMap s :: rest.map digitSegMap)
    by_cases hd : s.any Char.isDigit = true
    · rw [goDig_slash_digit false (by rw [hseg]; exact hd),
        goDig_skip_pass s (joinSlash rest) hs]
      have htail : goDig true (joinSlash rest) = goDig false (joinSlash rest) := by
        rcases joinSlash_shape rest with he | ⟨u, he⟩
        · rw [he]; rfl
        · rw [he, goDig_skip_slash]
      rw [htail, ih hrest]
      show _ = '/' :: (digitSegMap s ++ joinSlash (rest.map digitSegMap))
      rw [digitSegMap, if_pos hd]
      rfl
    · have hd' : s.any Char.isDigit = false := Bool.eq_false_iff.mpr hd
      rw [goDig_slash_nodigit false (by rw [hseg]; exact hd'),
        goDig_pass s (joinSlash rest) hs, ih hrest]
      show _ = '/' :: (digitSegMap s ++ joinSlash (rest.map digitSegMap))
      rw [digitSegMap, if_neg hd]

/-- Exact canonical UUID shape: 36 characters matching 8-4-4-4-12 hex. -/
def isUUID (s : List Char) : Bool := s.length == 36 && matchesShape uuidShape s

lemma isUUID_no_slash {s : List Char} (h : isUUID s = true) : '/' ∉ s := by
  intro hmem
  simp only [isUUID, Bool.and_eq_true, beq_iff_eq] at h
  obtain ⟨p, hp, hpc⟩ := matchesShape_mem uuidShape s h.2 (by rw [h.1, uuidShape_length]) '/' hmem
  rw [uuidShape_no_slash p hp] at hpc
  exact Bool.false_ne_true hpc

lemma isUUID_drop {s : List Char} (h : isUUID s = true) : s.drop 36 = [] := by
  simp only [isUUID, Bool.and_eq_true, beq_iff_eq] at h
  rw [← h.1, List.drop_length]

/-! ## The metrics registry and the two middleware dispatch loops

`PrometheusMetricsCollector` (in `metrics.py`) and `REDMetrics` (in
`metrics_scratch.py`) each own the same four instruments: a request counter
and an error counter labelled (method, status_code, endpoint, service), a
duration histogram with the same labels, and an in-flight gauge labelled
(method, endpoint, service).  (`metrics_scratch.py` calls the label
`status_code` `code`, `endpoint` `handler`, its counters `request_count` /
`error_count`, its histogram `request_duration` and its gauge
`requests_inflight`; the tuples are the same.)  Each instrument is modelled
as its current value per label tuple; the histogram is modelled as the list
of observed values per tuple. -/

structure Labels4 where
  method : String
  status_code : Nat
  endpoint : List Char
  service : List Char
deriving DecidableEq

structure Labels3 where
  method : String
  endpoint : List Char
  service : List Char
deriving DecidableEq

structure MetricsState where
  request_counter : Labels4 → Nat
  request_latency : Labels4 → List Nat
  error_counter : Labels4 → Nat
  active_requests : Labels3 → Int

/-- The all-zero registry, as freshly created at process start. -/
def zeroState : MetricsState :=
  { request_counter := fun _ => 0
    request_latency := fun _ => []
    error_counter := fun _ => 0
    active_requests := fun _ => 0 }

/-- One metric operation performed by a middleware, in program order;
`callNext` marks the invocation of the downstream handler. -/
inductive MetricEv where
  | incGauge : Labels3 → MetricEv
  | decGauge : Labels3 → MetricEv
  | callNext : MetricEv
  | incCounter : Labels4 → MetricEv
  | observe : Labels4 → Nat → MetricEv
  | incError : Labels4 → MetricEv
deriving DecidableEq

/-- Events touching only the counters and the histogram, never the gauge. -/
def isRecordEv : MetricEv → Bool
  | .incCounter _ => true
  | .observe _ _ => true
  | .incError _ => true
  | _ => false

/-- Result of the downstream handler chain (`await call_next(request)`):
either a response carrying a status code, or a raised exception. -/
inductive Outcome where
  | ok : Nat → Outcome
  | fault : String → Outcome
deriving DecidableEq

def Outcome.toResult : Outcome → Except String Nat
  | .ok s => .ok s
  | .fault e => .error e

/-- Whether each `prometheus_client` recording call raises.  The Python code
wraps none of them in try/except, so a raise at any of the three call sites
escapes `_record_metrics`; `RecBehavior.fine` is normal operation. -/
structure RecBehavior where
  onCounter : Option String
  onObserve : Option String
  onError : Option String
deriving DecidableEq

def RecBehavior.fine : RecBehavior := ⟨none, none, none⟩

structure Request where
  method : String
  path : List Char

/-- Per-middleware construction state: the exclusion dict (modelled by its
`.get(·, False)` lookup) and the service label computed in `__init__`. -/
structure Middleware where
  excluded_paths : List Char → Bool
  service_name : List Char

/-- Pointwise counter increment (`Counter.labels(...).inc()`). -/
def bumpC (f : Labels4 → Nat) (t : Labels4) : Labels4 → Nat :=
  fun u => if u = t then f u + 1 else f u

/-- Pointwise histogram observation (`Histogram.labels(...).observe(d)`). -/
def bumpH (f : Labels4 → List Nat) (t : Labels4) (d : Nat) : Labels4 → List Nat :=
  fun u => if u = t then f u ++ [d] else f u

/-- Pointwise gauge delta (`Gauge.labels(...).inc()` / `.dec()`). -/
def bumpG (f : Labels3 → Int) (t : Labels3) (d : Int) : Labels3 → Int :=
  fun u => if u = t then f u + d else f u

/-- `PrometheusMetricsMiddleware._format_service_name`:
`settings.APP_NAME.lower().replace(" ", "-") + "--" + settings.APP_ENV.lower()`
(`metrics_scratch.py` computes the same expression inline in `__init__`). -/
def format_service_name (appName appEnv : List Char) : List Char :=
  (appName.map Char.toLower).map (fun c => if c = ' ' then '-' else c)
    ++ '-' :: '-' :: appEnv.map Char.toLower

example : format_service_name "My App".toList "LOCAL".toList = "my-app--local".toList := by
  decide

namespace Prom

/-- `PrometheusMetricsMiddleware._record_metrics`: increment the request
counter, observe the duration, and increment the error counter when
`status_code >= 400`.  Returns the updated registry, the events performed,
and the exception escaping the method, if any. -/
def record_metrics (svc : List Char) (method : String) (endpoint : List Char)
    (status : Nat) (duration : Nat) (rb : RecBehavior) (st : MetricsState) :
    MetricsState × List MetricEv × Option String :=
  let t : Labels4 := ⟨method, status, endpoint, svc⟩
  match rb.onCounter with
  | some e => (st, [], some e)
  | none =>
    let st1 := { st with request_counter := bumpC st.request_counter t }
    match rb.onObserve with
    | some e => (st1, [.incCounter t], some e)
    | none =>
      let st2 := { st1 with request_latency := bumpH st1.request_latency t duration }
      if 400 ≤ status then
        match rb.onError with
        | some e => (st2, [.incCounter t, .observe t duration], some e)
        | none =>
          ({ st2 with error_counter := bumpC st2.error_counter t },
            [.incCounter t, .observe t duration, .incError t], none)
      else
        (st2, [.incCounter t, .observe t duration], none)

/-- `PrometheusMetricsMiddleware._handle_metrics_collection`: increment the
in-flight gauge, `try:` call the handler and (on a normal response) record
metrics, `finally:` decrement the gauge.  An exception from the handler or
from recording escapes after the `finally` ran. -/
def handle_metrics_collection (mw : Middleware) (method : String)
    (endpoint : List Char) (outcome : Outcome) (duration : Nat)
    (rb : RecBehavior) (st : MetricsState) :
    MetricsState × Except String Nat × List MetricEv :=
  let g : Labels3 := ⟨method, endpoint, mw.service_name⟩
  let st1 := { st with active_requests := bumpG st.active_requests g 1 }
  match outcome with
  | .fault e =>
    ({ st1 with active_requests := bumpG st1.active_requests g (-1) },
      .error e, [.incGauge g, .callNext, .decGauge g])
  | .ok s =>
    let r := record_metrics mw.service_name method endpoint s duration rb st1
    let st3 := { r.1 with active_requests := bumpG r.1.active_requests g (-1) }
    (st3,
      match r.2.2 with
      | some e => .error e
      | none => .ok s,
      .incGauge g :: .callNext :: r.2.1 ++ [.decGauge g])

/-- `PrometheusMetricsMiddleware.dispatch`: normalize the path, consult the
exclusion dict on the *normalized* path, and either pass straight through or
collect metrics around the handler call. -/
def dispatch (mw : Middleware) (req : Request) (outcome : Outcome)
    (duration : Nat) (rb : RecBehavior) (st : MetricsState) :
    MetricsState × Except String Nat × List MetricEv :=
  let endpoint := Prom.normalize_path req.path
  if mw.excluded_paths endpoint then
    (st, outcome.toResult, [.callNext])
  else
    handle_metrics_collection mw req.method endpoint outcome duration rb st

/-- `PrometheusMetricsMiddleware.exclude_paths`: set each given path to True
in the exclusion dict. -/
def exclude_paths (mw : Middleware) (paths : List (List Char)) : Middleware :=
  { mw with excluded_paths := fun x => if x ∈ paths then true else mw.excluded_paths x }

end Prom

/-- The default exclusion dict installed by
`PrometheusMetricsCollector.init_app` (the same five paths are installed by
`REDMetrics.init_app` as `skip_paths`). -/
def init_app_excluded : List Char → Bool :=
  fun x => decide (x ∈ ["/metrics".toList, "/health".toList, "/docs".toList,
    "/openapi.json".toList, "/favicon.ico".toList])

namespace RED

/-- The inline recording block of `REDMetricsMiddleware.dispatch`: request
counter, duration observation, and error counter when
`400 <= status_code < 600`. -/
def record_metrics (svc : List Char) (method : String) (endpoint : List Char)
    (status : Nat) (duration : Nat) (rb : RecBehavior) (st : MetricsState) :
    MetricsState × List MetricEv × Option String :=
  let t : Labels4 := ⟨method, status, endpoint, svc⟩
  match rb.onCounter with
  | some e => (st, [], some e)
  | none =>
    let st1 := { st with request_counter := bumpC st.request_counter t }
    match rb.onObserve with
    | some e => (st1, [.incCounter t], some e)
    | none =>
      let st2 := { st1 with request_latency := bumpH st1.request_latency t duration }
      if 400 ≤ status ∧ status < 600 then
        match rb.onError with
        | some e => (st2, [.incCounter t, .observe t duration], some e)
        | none =>
          ({ st2 with error_counter := bumpC st2.error_counter t },
            [.incCounter t, .observe t duration, .incError t], none)
      else
        (st2, [.incCounter t, .observe t duration], none)

/-- `REDMetricsMiddleware.dispatch`: normalize, consult `skip_paths` on the
normalized path; otherwise increment the in-flight gauge, `try:` call the
handler, `finally:` decrement the gauge, then (only on a normal response)
record the counters/histogram after the `finally` block. -/
def dispatch (mw : Middleware) (req : Request) (outcome : Outcome)
    (duration : Nat) (rb : RecBehavior) (st : MetricsState) :
    MetricsState × Except String Nat × List MetricEv :=
  let endpoint := RED.normalize_path req.path
  if mw.excluded_paths endpoint then
    (st, outcome.toResult, [.callNext])
  else
    let g : Labels3 := ⟨req.method, endpoint, mw.service_name⟩
    let st1 := { st with active_requests := bumpG st.active_requests g 1 }
    match outcome with
    | .fault e =>
      ({ st1 with active_requests := bumpG st1.active_requests g (-1) },
        .error e, [.incGauge g, .callNext, .decGauge g])
    | .ok s =>
      let st2 := { st1 with active_requests := bumpG st1.active_requests g (-1) }
      let r := record_metrics mw.service_name req.method endpoint s duration rb st2
      (r.1,
        match r.2.2 with
        | some e => .error e
        | none => .ok s,
        .incGauge g :: .callNext :: .decGauge g :: r.2.1)

/-- `REDMetricsMiddleware.skip`: set each given path to True in `skip_paths`. -/
def skip (mw : Middleware) (paths : List (List Char)) : Middleware :=
  { mw with excluded_paths := fun x => if x ∈ paths then true else mw.excluded_paths x }

end RED

deriving instance DecidableEq for Except

/-! ### Characterization lemmas for the two dispatch loops -/

lemma bumpG_cancel (f : Labels3 → Int) (g : Labels3) :
    bumpG (bumpG f g 1) g (-1) = f := by
  funext u
  simp only [bumpG]
  by_cases h : u = g <;> simp [h]

lemma prom_record_metrics_active (svc : List Char) (method : String)
    (endpoint : List Char) (status duration : Nat) (rb : RecBehavior)
    (st : MetricsState) :
    (Prom.record_metrics svc method endpoint status duration rb st).1.active_requests
      = st.active_requests := by
  rcases rb with ⟨_ | rc, _ | ro, _ | re⟩ <;>
    simp [Prom.record_metrics] <;> split <;> rfl

lemma prom_record_metrics_events (svc : List Char) (method : String)
    (endpoint : List Char) (status duration : Nat) (rb : RecBehavior)
    (st : MetricsState) :
    ∀ ev ∈ (Prom.record_metrics svc method endpoint status duration rb st).2.1,
      isRecordEv ev = true := by
  rcases rb with ⟨_ | rc, _ | ro, _ | re⟩ <;>
    simp [Prom.record_metrics] <;>
    first
      | (split <;> simp [isRecordEv])
      | simp [isRecordEv]

lemma red_record_metrics_active (svc : List Char) (method : String)
    (endpoint : List Char) (status duration : Nat) (rb : RecBehavior)
    (st : MetricsState) :
    (RED.record_metrics svc method endpoint status duration rb st).1.active_requests
      = st.active_requests := by
  rcases rb with ⟨_ | rc, _ | ro, _ | re⟩ <;>
    simp [RED.record_metrics] <;> split <;> rfl

lemma red_record_metrics_events (svc : List Char) (method : String)
    (endpoint : List Char) (status duration : Nat) (rb : RecBehavior)
    (st : MetricsState) :
    ∀ ev ∈ (RED.record_metrics svc method endpoint status duration rb st).2.1,
      isRecordEv ev = true := by
  rcases rb with ⟨_ | rc, _ | ro, _ | re⟩ <;>
    simp [RED.record_metrics] <;>
    first
      | (split <;> simp [isRecordEv])
      | simp [isRecordEv]

/-- On a handler fault, `metrics.py` leaves the whole registry unchanged
(the gauge was incremented and, in the `finally` block, decremented) and
re-raises the fault. -/
lemma prom_dispatch_fault (mw : Middleware) (req : Request) (e : String)
    (duration : Nat) (rb : RecBehavior) (st : MetricsState)
    (hP : mw.excluded_paths (Prom.normalize_path req.path) = false) :
    Prom.dispatch mw req (.fault e) duration rb st =
      (st, .error e,
        [.incGauge ⟨req.method, Prom.normalize_path req.path, mw.service_name⟩,
         .callNext,
         .decGauge ⟨req.method, Prom.normalize_path req.path, mw.service_name⟩]) := by
  simp only [Prom.dispatch, hP, Bool.false_eq_true, if_false,
    Prom.handle_metrics_collection, bumpG_cancel]

lemma red_dispatch_fault (mw : Middleware) (req : Request) (e : String)
    (duration : Nat) (rb : RecBehavior) (st : MetricsState)
    (hR : mw.excluded_paths (RED.normalize_path req.path) = false) :
    RED.dispatch mw req (.fault e) duration rb st =
      (st, .error e,
        [.incGauge ⟨req.method, RED.normalize_path req.path, mw.service_name⟩,
         .callNext,
         .decGauge ⟨req.method, RED.normalize_path req.path, mw.service_name⟩]) := by
  simp only [RED.dispatch, hR, Bool.false_eq_true, if_false, bumpG_cancel]

/-- Normal operation of `metrics.py` on a measured request: the request
counter and histogram tuple gain one observation, the error counter gains one
iff `400 <= status`, the gauge nets to zero, and the handler's response is
returned. -/
lemma prom_dispatch_ok_fine (mw : Middleware) (req : Request) (s duration : Nat)
    (st : MetricsState)
    (hP : mw.excluded_paths (Prom.normalize_path req.path) = false) :
    Prom.dispatch mw req (.ok s) duration .fine st =
      ({ request_counter := bumpC st.request_counter
            ⟨req.method, s, Prom.normalize_path req.path, mw.service_name⟩
         request_latency := bumpH st.request_latency
            ⟨req.method, s, Prom.normalize_path req.path, mw.service_name⟩ duration
         error_counter := if 400 ≤ s then
            bumpC st.error_counter
              ⟨req.method, s, Prom.normalize_path req.path, mw.service_name⟩
            else st.error_counter
         active_requests := st.active_requests },
       .ok s,
       .incGauge ⟨req.method, Prom.normalize_path req.path, mw.service_name⟩ ::
         .callNext ::
         .incCounter ⟨req.method, s, Prom.normalize_path req.path, mw.service_name⟩ ::
         .observe ⟨req.method, s, Prom.normalize_path req.path, mw.service_name⟩ duration ::
         (if 400 ≤ s then
            [.incError ⟨req.method, s, Prom.normalize_path req.path, mw.service_name⟩]
          else []) ++
         [.decGauge ⟨req.method, Prom.normalize_path req.path, mw.service_name⟩]) := by
  simp only [Prom.dispatch, hP, Bool.false_eq_true, if_false,
    Prom.handle_metrics_collection, Prom.record_metrics, RecBehavior.fine]
  by_cases hs : 400 ≤ s <;> simp [hs, bumpG_cancel]

/-- Normal operation of `metrics_scratch.py` on a measured request: same
instrument deltas except that the error counter requires
`400 <= status < 600`, and the gauge decrement precedes the recording
events in program order. -/
lemma red_dispatch_ok_fine (mw : Middleware) (req : Request) (s duration : Nat)
    (st : MetricsState)
    (hR : mw.excluded_paths (RED.normalize_path req.path) = false) :
    RED.dispatch mw req (.ok s) duration .fine st =
      ({ request_counter := bumpC st.request_counter
            ⟨req.method, s, RED.normalize_path req.path, mw.service_name⟩
         request_latency := bumpH st.request_latency
            ⟨req.method, s, RED.normalize_path req.path, mw.service_name⟩ duration
         error_counter := if 400 ≤ s ∧ s < 600 then
            bumpC st.error_counter
              ⟨req.method, s, RED.normalize_path req.path, mw.service_name⟩
            else st.error_counter
         active_requests := st.active_requests },
       .ok s,
       .incGauge ⟨req.method, RED.normalize_path req.path, mw.service_name⟩ ::
         .callNext ::
         .decGauge ⟨req.method, RED.normalize_path req.path, mw.service_name⟩ ::
         .incCounter ⟨req.method, s, RED.normalize_path req.path, mw.service_name⟩ ::
         .observe ⟨req.method, s, RED.normalize_path req.path, mw.service_name⟩ duration ::
         (if 400 ≤ s ∧ s < 600 then
            [.incError ⟨req.method, s, RED.normalize_path req.path, mw.service_name⟩]
          else [])) := by
  simp only [RED.dispatch, hR, Bool.false_eq_true, if_false,
    RED.record_metrics, RecBehavior.fine, bumpG_cancel]
  by_cases hs : 400 ≤ s ∧ s < 600 <;> simp [hs, bumpG_cancel]

/-- If the very first recording call (`request_counter...inc()`) raises, the
`metrics.py` middleware's `finally` still decrements the gauge, no instrument
retains a change, and the exception — not the handler's response — reaches
the caller. -/
lemma prom_dispatch_ok_counterfault (mw : Middleware) (req : Request)
    (s duration : Nat) (e : String) (ro re : Option String) (st : MetricsState)
    (hP : mw.excluded_paths (Prom.normalize_path req.path) = false) :
    Prom.dispatch mw req (.ok s) duration ⟨some e, ro, re⟩ st =
      (st, .error e,
        [.incGauge ⟨req.method, Prom.normalize_path req.path, mw.service_name⟩,
         .callNext,
         .decGauge ⟨req.method, Prom.normalize_path req.path, mw.service_name⟩]) := by
  simp only [Prom.dispatch, hP, Bool.false_eq_true, if_false,
    Prom.handle_metrics_collection, Prom.record_metrics, bumpG_cancel]
  rfl

lemma red_dispatch_ok_counterfault (mw : Middleware) (req : Request)
    (s duration : Nat) (e : String) (ro re : Option String) (st : MetricsState)
    (hR : mw.excluded_paths (RED.normalize_path req.path) = false) :
    RED.dispatch mw req (.ok s) duration ⟨some e, ro, re⟩ st =
      (st, .error e,
        [.incGauge ⟨req.method, RED.normalize_path req.path, mw.service_name⟩,
         .callNext,
         .decGauge ⟨req.method, RED.normalize_path req.path, mw.service_name⟩]) := by
  simp only [RED.dispatch, hR, Bool.false_eq_true, if_false,
    RED.record_metrics, bumpG_cancel]

/-! ## Claims -/

/-- The per-request gauge discipline of a dispatch run: the in-flight gauge
ends at its pre-request value (every tuple), the event trace is exactly one
gauge increment before the handler call and one gauge decrement after it
with only counter/histogram events elsewhere, and a handler fault is
re-raised to the caller. -/
def GaugeDiscipline (g : Labels3) (outcome : Outcome) (st : MetricsState)
    (out : MetricsState × Except String Nat × List MetricEv) : Prop :=
  out.1.active_requests = st.active_requests ∧
  (∃ evs, (∀ ev ∈ evs, isRecordEv ev = true) ∧
    (out.2.2 = .incGauge g :: .callNext :: evs ++ [.decGauge g] ∨
     out.2.2 = .incGauge g :: .callNext :: .decGauge g :: evs)) ∧
  (∀ e, outcome = .fault e → out.2.1 = .error e)

/-- C1: for every non-exempt request, both middlewares increment the
in-flight gauge for (method, normalized endpoint, service) exactly once
before invoking the downstream handler and decrement the same tuple exactly
once after it returns or raises; the gauge returns to its pre-request value
on the success path and the handler-fault path, and a handler fault reaches
the caller only after the decrement. -/
theorem claim_C1 (mw : Middleware) (req : Request) (outcome : Outcome)
    (duration : Nat) (rb : RecBehavior) (st : MetricsState)
    (hP : mw.excluded_paths (Prom.normalize_path req.path) = false)
    (hR : mw.excluded_paths (RED.normalize_path req.path) = false) :
    GaugeDiscipline ⟨req.method, Prom.normalize_path req.path, mw.service_name⟩
        outcome st (Prom.dispatch mw req outcome duration rb st) ∧
      GaugeDiscipline ⟨req.method, RED.normalize_path req.path, mw.service_name⟩
        outcome st (RED.dispatch mw req outcome duration rb st) := by
  constructor
  · cases outcome with
    | fault e =>
      rw [prom_dispatch_fault mw req e duration rb st hP]
      exact ⟨rfl, ⟨[], by simp, Or.inl rfl⟩,
        fun e' he => by cases he; rfl⟩
    | ok s =>
      simp only [Prom.dispatch, hP, Bool.false_eq_true, if_false,
        Prom.handle_metrics_collection]
      refine ⟨?_, ⟨_, ?_, Or.inl rfl⟩, fun e he => by cases he⟩
      · simp only [GaugeDiscipline, prom_record_metrics_active, bumpG_cancel]
      · exact prom_record_metrics_events _ _ _ _ _ _ _
  · cases outcome with
    | fault e =>
      rw [red_dispatch_fault mw req e duration rb st hR]
      exact ⟨rfl, ⟨[], by simp, Or.inl rfl⟩,
        fun e' he => by cases he; rfl⟩
    | ok s =>
      simp only [RED.dispatch, hR, Bool.false_eq_true, if_false, bumpG_cancel]
      refine ⟨?_, ⟨_, ?_, Or.inr rfl⟩, fun e he => by cases he⟩
      · simp only [red_record_metrics_active]
      · exact red_record_metrics_events _ _ _ _ _ _ _

/-- Witness for C1: a concrete non-exempt GET request on both middlewares. -/
theorem claim_C1_witness :
    GaugeDiscipline ⟨"GET", Prom.normalize_path "/items".toList, "svc".toList⟩
        (.ok 200) zeroState
        (Prom.dispatch ⟨fun _ => false, "svc".toList⟩ ⟨"GET", "/items".toList⟩
          (.ok 200) 7 .fine zeroState) ∧
      GaugeDiscipline ⟨"GET", RED.normalize_path "/items".toList, "svc".toList⟩
        (.ok 200) zeroState
        (RED.dispatch ⟨fun _ => false, "svc".toList⟩ ⟨"GET", "/items".toList⟩
          (.ok 200) 7 .fine zeroState) :=
  claim_C1 ⟨fun _ => false, "svc".toList⟩ ⟨"GET", "/items".toList⟩
    (.ok 200) 7 .fine zeroState rfl rfl

/-- C8: a request whose (normalized) path is in the exclusion dict passes
straight through: the registry is returned untouched, the handler's response
(or fault) is forwarded unmodified, and no metric instrument is touched. -/
theorem claim_C8 (mw : Middleware) (req : Request) (outcome : Outcome)
    (duration : Nat) (rb : RecBehavior) (st : MetricsState)
    (hP : mw.excluded_paths (Prom.normalize_path req.path) = true)
    (hR : mw.excluded_paths (RED.normalize_path req.path) = true) :
    Prom.dispatch mw req outcome duration rb st = (st, outcome.toResult, [.callNext]) ∧
      RED.dispatch mw req outcome duration rb st = (st, outcome.toResult, [.callNext]) := by
  constructor
  · simp [Prom.dispatch, hP]
  · simp [RED.dispatch, hR]

/-- Witness for C8: a request to `/metrics` under the default exclusions of
`init_app`. -/
theorem claim_C8_witness :
    Prom.dispatch ⟨init_app_excluded, "svc".toList⟩ ⟨"GET", "/metrics".toList⟩
        (.ok 200) 3 .fine zeroState = (zeroState, (Outcome.ok 200).toResult, [.callNext]) ∧
      RED.dispatch ⟨init_app_excluded, "svc".toList⟩ ⟨"GET", "/metrics".toList⟩
        (.ok 200) 3 .fine zeroState = (zeroState, (Outcome.ok 200).toResult, [.callNext]) :=
  claim_C8 ⟨init_app_excluded, "svc".toList⟩ ⟨"GET", "/metrics".toList⟩
    (.ok 200) 3 .fine zeroState (by decide) (by decide)

/-- C10: exemption is decided solely by the normalized path — a dispatch run
performs no metric operation iff the exclusion dict maps the normalized path
to True — and an exclusion entry that normalization would change can never
equal any request's normalized path, so adding it through
`exclude_paths`/`skip` leaves every request's exemption decision (hence its
measurement) unchanged. -/
theorem claim_C10 (mw : Middleware) (req : Request) (outcome : Outcome)
    (duration : Nat) (rb : RecBehavior) (st : MetricsState) (e : List Char)
    (hU : Prom.normalize_path e ≠ e) (hD : RED.normalize_path e ≠ e) :
    ((Prom.dispatch mw req outcome duration rb st).2.2 = [.callNext] ↔
        mw.excluded_paths (Prom.normalize_path req.path) = true) ∧
      ((RED.dispatch mw req outcome duration rb st).2.2 = [.callNext] ↔
        mw.excluded_paths (RED.normalize_path req.path) = true) ∧
      (Prom.exclude_paths mw [e]).excluded_paths (Prom.normalize_path req.path)
        = mw.excluded_paths (Prom.normalize_path req.path) ∧
      (RED.skip mw [e]).excluded_paths (RED.normalize_path req.path)
        = mw.excluded_paths (RED.normalize_path req.path) := by
  refine ⟨⟨?_, ?_⟩, ⟨?_, ?_⟩, ?_, ?_⟩
  · intro h
    by_cases hx : mw.excluded_paths (Prom.normalize_path req.path) = true
    · exact hx
    · exfalso
      have hx' : mw.excluded_paths (Prom.normalize_path req.path) = false :=
        Bool.eq_false_iff.mpr hx
      cases outcome with
      | fault e' => rw [prom_dispatch_fault mw req e' duration rb st hx'] at h; simp at h
      | ok s =>
        simp only [Prom.dispatch, hx', Bool.false_eq_true, if_false,
          Prom.handle_metrics_collection] at h
        simp at h
  · intro h
    simp [Prom.dispatch, h]
  · intro h
    by_cases hx : mw.excluded_paths (RED.normalize_path req.path) = true
    · exact hx
    · exfalso
      have hx' : mw.excluded_paths (RED.normalize_path req.path) = false :=
        Bool.eq_false_iff.mpr hx
      cases outcome with
      | fault e' => rw [red_dispatch_fault mw req e' duration rb st hx'] at h; simp at h
      | ok s =>
        simp only [RED.dispatch, hx', Bool.false_eq_true, if_false] at h
        simp at h
  · intro h
    simp [RED.dispatch, h]
  · have hne : Prom.normalize_path req.path ≠ e := by
      intro hcontra
      apply hU
      calc Prom.normalize_path e
          = Prom.normalize_path (Prom.normalize_path req.path) := by rw [hcontra]
        _ = Prom.normalize_path req.path := goUUID_idem req.path
        _ = e := hcontra
    simp [Prom.exclude_paths, hne]
  · have hne : RED.normalize_path req.path ≠ e := by
      intro hcontra
      apply hD
      calc RED.normalize_path e
          = RED.normalize_path (RED.normalize_path req.path) := by rw [hcontra]
        _ = RED.normalize_path req.path := goDig_idem req.path
        _ = e := hcontra
    simp [RED.skip, hne]

/-- Witness for C10: the entry `/a/15ca8c18-43d4-4da3-ad14-2dc127365b04` is
rewritten by both normalizers, so adding it exempts nothing. -/
theorem claim_C10_witness :
    ((Prom.dispatch ⟨init_app_excluded, "svc".toList⟩ ⟨"GET", "/x".toList⟩
        (.ok 200) 3 .fine zeroState).2.2 = [.callNext] ↔
      init_app_excluded (Prom.normalize_path "/x".toList) = true) ∧
    ((RED.dispatch ⟨init_app_excluded, "svc".toList⟩ ⟨"GET", "/x".toList⟩
        (.ok 200) 3 .fine zeroState).2.2 = [.callNext] ↔
      init_app_excluded (RED.normalize_path "/x".toList) = true) ∧
    (Prom.exclude_paths ⟨init_app_excluded, "svc".toList⟩
        ["/a/15ca8c18-43d4-4da3-ad14-2dc127365b04".toList]).excluded_paths
        (Prom.normalize_path "/x".toList)
      = init_app_excluded (Prom.normalize_path "/x".toList) ∧
    (RED.skip ⟨init_app_excluded, "svc".toList⟩
        ["/a/15ca8c18-43d4-4da3-ad14-2dc127365b04".toList]).excluded_paths
        (RED.normalize_path "/x".toList)
      = init_app_excluded (RED.normalize_path "/x".toList) :=
  claim_C10 ⟨init_app_excluded, "svc".toList⟩ ⟨"GET", "/x".toList⟩
    (.ok 200) 3 .fine zeroState "/a/15ca8c18-43d4-4da3-ad14-2dc127365b04".toList
    (by decide) (by decide)

/-- Counterexample to C2 as stated: a request to `/metrics` (exempt under the
default `init_app` exclusions) completes with status 200, yet the request
counter of its resolved label tuple does not increase by 1 (it does not
change at all). -/
theorem claim_C2_counterexample :
    (Prom.dispatch ⟨init_app_excluded, "svc".toList⟩ ⟨"GET", "/metrics".toList⟩
        (.ok 200) 3 .fine zeroState).2.1 = .ok 200 ∧
      (Prom.dispatch ⟨init_app_excluded, "svc".toList⟩ ⟨"GET", "/metrics".toList⟩
          (.ok 200) 3 .fine zeroState).1.request_counter
          ⟨"GET", 200, Prom.normalize_path "/metrics".toList, "svc".toList⟩
        ≠ zeroState.request_counter
            ⟨"GET", 200, Prom.normalize_path "/metrics".toList, "svc".toList⟩ + 1 := by
  constructor
  · decide
  · decide

/-- C2 as amended: for every non-exempt request whose handler returns a
response and whose metric recording raises nothing, the request counter of
the resolved (method, endpoint-template, status_code, service) tuple
increases by exactly 1 and every other request-counter tuple is unchanged,
in both middlewares. -/
theorem claim_C2_amended (mw : Middleware) (req : Request) (s duration : Nat)
    (st : MetricsState)
    (hP : mw.excluded_paths (Prom.normalize_path req.path) = false)
    (hR : mw.excluded_paths (RED.normalize_path req.path) = false) :
    ((Prom.dispatch mw req (.ok s) duration .fine st).1.request_counter
        ⟨req.method, s, Prom.normalize_path req.path, mw.service_name⟩
      = st.request_counter
          ⟨req.method, s, Prom.normalize_path req.path, mw.service_name⟩ + 1) ∧
    (∀ u : Labels4, u ≠ ⟨req.method, s, Prom.normalize_path req.path, mw.service_name⟩ →
      (Prom.dispatch mw req (.ok s) duration .fine st).1.request_counter u
        = st.request_counter u) ∧
    ((RED.dispatch mw req (.ok s) duration .fine st).1.request_counter
        ⟨req.method, s, RED.normalize_path req.path, mw.service_name⟩
      = st.request_counter
          ⟨req.method, s, RED.normalize_path req.path, mw.service_name⟩ + 1) ∧
    (∀ u : Labels4, u ≠ ⟨req.method, s, RED.normalize_path req.path, mw.service_name⟩ →
      (RED.dispatch mw req (.ok s) duration .fine st).1.request_counter u
        = st.request_counter u) := by
  rw [prom_dispatch_ok_fine mw req s duration st hP,
    red_dispatch_ok_fine mw req s duration st hR]
  refine ⟨?_, ?_, ?_, ?_⟩
  · simp [bumpC]
  · intro u hu
    simp [bumpC, hu]
  · simp [bumpC]
  · intro u hu
    simp [bumpC, hu]

/-- Witness for amended C2: a concrete measured 200 request; the counter at
the resolved tuple becomes 1 and an unrelated tuple stays 0. -/
theorem claim_C2_witness :
    ((Prom.dispatch ⟨fun _ => false, "svc".toList⟩ ⟨"GET", "/x".toList⟩
        (.ok 200) 3 .fine zeroState).1.request_counter
        ⟨"GET", 200, Prom.normalize_path "/x".toList, "svc".toList⟩
      = zeroState.request_counter
          ⟨"GET", 200, Prom.normalize_path "/x".toList, "svc".toList⟩ + 1) ∧
    ((Prom.dispatch ⟨fun _ => false, "svc".toList⟩ ⟨"GET", "/x".toList⟩
        (.ok 200) 3 .fine zeroState).1.request_counter
        ⟨"POST", 200, Prom.normalize_path "/x".toList, "svc".toList⟩
      = zeroState.request_counter
          ⟨"POST", 200, Prom.normalize_path "/x".toList, "svc".toList⟩) ∧
    ((RED.dispatch ⟨fun _ => false, "svc".toList⟩ ⟨"GET", "/x".toList⟩
        (.ok 200) 3 .fine zeroState).1.request_counter
        ⟨"GET", 200, RED.normalize_path "/x".toList, "svc".toList⟩
      = zeroState.request_counter
          ⟨"GET", 200, RED.normalize_path "/x".toList, "svc".toList⟩ + 1) :=
  ⟨(claim_C2_amended ⟨fun _ => false, "svc".toList⟩ ⟨"GET", "/x".toList⟩
      200 3 zeroState rfl rfl).1,
   (claim_C2_amended ⟨fun _ => false, "svc".toList⟩ ⟨"GET", "/x".toList⟩
      200 3 zeroState rfl rfl).2.1
      ⟨"POST", 200, Prom.normalize_path "/x".toList, "svc".toList⟩ (by decide),
   (claim_C2_amended ⟨fun _ => false, "svc".toList⟩ ⟨"GET", "/x".toList⟩
      200 3 zeroState rfl rfl).2.2.1⟩

/-- Counterexample to C3 as stated: the scratch middleware guards its error
counter with `400 <= status_code < 600`, so a response with status 600
(`>= 400`) completes normally yet increments no error-counter tuple. -/
theorem claim_C3_counterexample :
    (RED.dispatch ⟨fun _ => false, "svc".toList⟩ ⟨"GET", "/x".toList⟩
        (.ok 600) 3 .fine zeroState).2.1 = .ok 600 ∧
      (RED.dispatch ⟨fun _ => false, "svc".toList⟩ ⟨"GET", "/x".toList⟩
          (.ok 600) 3 .fine zeroState).1.error_counter
          ⟨"GET", 600, RED.normalize_path "/x".toList, "svc".toList⟩
        ≠ zeroState.error_counter
            ⟨"GET", 600, RED.normalize_path "/x".toList, "svc".toList⟩ + 1 := by
  constructor
  · decide
  · decide

/-- C3 as amended: on a measured, normally-completing request,
`metrics.py` increments the error counter of the resolved tuple by exactly 1
iff `status >= 400`, while `metrics_scratch.py` does so iff
`400 <= status < 600`; in every other case (status outside the guard, other
tuples, handler fault) no error-counter tuple changes. -/
theorem claim_C3_amended (mw : Middleware) (req : Request) (s duration : Nat)
    (rb : RecBehavior) (st : MetricsState)
    (hP : mw.excluded_paths (Prom.normalize_path req.path) = false)
    (hR : mw.excluded_paths (RED.normalize_path req.path) = false) :
    (400 ≤ s →
      (Prom.dispatch mw req (.ok s) duration .fine st).1.error_counter
          ⟨req.method, s, Prom.normalize_path req.path, mw.service_name⟩
        = st.error_counter
            ⟨req.method, s, Prom.normalize_path req.path, mw.service_name⟩ + 1) ∧
    (s < 400 → ∀ u : Labels4,
      (Prom.dispatch mw req (.ok s) duration .fine st).1.error_counter u
        = st.error_counter u) ∧
    (∀ u : Labels4, u ≠ ⟨req.method, s, Prom.normalize_path req.path, mw.service_name⟩ →
      (Prom.dispatch mw req (.ok s) duration .fine st).1.error_counter u
        = st.error_counter u) ∧
    (400 ≤ s ∧ s < 600 →
      (RED.dispatch mw req (.ok s) duration .fine st).1.error_counter
          ⟨req.method, s, RED.normalize_path req.path, mw.service_name⟩
        = st.error_counter
            ⟨req.method, s, RED.normalize_path req.path, mw.service_name⟩ + 1) ∧
    (¬ (400 ≤ s ∧ s < 600) → ∀ u : Labels4,
      (RED.dispatch mw req (.ok s) duration .fine st).1.error_counter u
        = st.error_counter u) ∧
    (∀ u : Labels4, u ≠ ⟨req.method, s, RED.normalize_path req.path, mw.service_name⟩ →
      (RED.dispatch mw req (.ok s) duration .fine st).1.error_counter u
        = st.error_counter u) ∧
    (∀ e : String, ∀ u : Labels4,
      (Prom.dispatch mw req (.fault e) duration rb st).1.error_counter u
        = st.error_counter u ∧
      (RED.dispatch mw req (.fault e) duration rb st).1.error_counter u
        = st.error_counter u) := by
  rw [prom_dispatch_ok_fine mw req s duration st hP,
    red_dispatch_ok_fine mw req s duration st hR]
  refine ⟨?_, ?_, ?_, ?_, ?_, ?_, ?_⟩
  · intro hs
    simp [hs, bumpC]
  · intro hs
    have : ¬ 400 ≤ s := by omega
    simp [this]
  · intro u hu
    by_cases hs : 400 ≤ s <;> simp [hs, bumpC, hu]
  · intro hs
    simp [hs, bumpC]
  · intro hs
    simp [hs]
  · intro u hu
    by_cases hs : 400 ≤ s ∧ s < 600 <;> simp [hs, bumpC, hu]
  · intro e u
    rw [prom_dispatch_fault mw req e duration rb st hP,
      red_dispatch_fault mw req e duration rb st hR]
    exact ⟨rfl, rfl⟩

/-- Witness for amended C3: a concrete measured 404 increments the error
tuple in both middlewares. -/
theorem claim_C3_witness :
    ((Prom.dispatch ⟨fun _ => false, "svc".toList⟩ ⟨"GET", "/x".toList⟩
        (.ok 404) 3 .fine zeroState).1.error_counter
        ⟨"GET", 404, Prom.normalize_path "/x".toList, "svc".toList⟩
      = zeroState.error_counter
          ⟨"GET", 404, Prom.normalize_path "/x".toList, "svc".toList⟩ + 1) ∧
    ((RED.dispatch ⟨fun _ => false, "svc".toList⟩ ⟨"GET", "/x".toList⟩
        (.ok 404) 3 .fine zeroState).1.error_counter
        ⟨"GET", 404, RED.normalize_path "/x".toList, "svc".toList⟩
      = zeroState.error_counter
          ⟨"GET", 404, RED.normalize_path "/x".toList, "svc".toList⟩ + 1) :=
  ⟨(claim_C3_amended ⟨fun _ => false, "svc".toList⟩ ⟨"GET", "/x".toList⟩
      404 3 .fine zeroState rfl rfl).1 (by decide),
   (claim_C3_amended ⟨fun _ => false, "svc".toList⟩ ⟨"GET", "/x".toList⟩
      404 3 .fine zeroState rfl rfl).2.2.2.1 (by decide)⟩

/-- Counterexample to C4 as stated: neither middleware wraps its
`prometheus_client` calls in try/except, so a fault raised by the first
recording call replaces the handler's 200 response with the fault at the
caller. -/
theorem claim_C4_counterexample :
    (Prom.dispatch ⟨fun _ => false, "svc".toList⟩ ⟨"GET", "/x".toList⟩
        (.ok 200) 3 ⟨some "boom", none, none⟩ zeroState).2.1 = .error "boom" ∧
      (Prom.dispatch ⟨fun _ => false, "svc".toList⟩ ⟨"GET", "/x".toList⟩
          (.ok 200) 3 ⟨some "boom", none, none⟩ zeroState).2.1 ≠ .ok 200 := by
  constructor
  · decide
  · decide

/-- If the histogram `observe()` call raises, the request-counter increment
made just before it is retained in the registry, the `finally` of
`metrics.py` still decrements the gauge, and the exception reaches the
caller. -/
lemma prom_dispatch_ok_observefault (mw : Middleware) (req : Request)
    (s duration : Nat) (e : String) (re : Option String) (st : MetricsState)
    (hP : mw.excluded_paths (Prom.normalize_path req.path) = false) :
    Prom.dispatch mw req (.ok s) duration ⟨none, some e, re⟩ st =
      ({ request_counter := bumpC st.request_counter
            ⟨req.method, s, Prom.normalize_path req.path, mw.service_name⟩
         request_latency := st.request_latency
         error_counter := st.error_counter
         active_requests := st.active_requests },
       .error e,
       [.incGauge ⟨req.method, Prom.normalize_path req.path, mw.service_name⟩,
        .callNext,
        .incCounter ⟨req.method, s, Prom.normalize_path req.path, mw.service_name⟩,
        .decGauge ⟨req.method, Prom.normalize_path req.path, mw.service_name⟩]) := by
  simp only [Prom.dispatch, hP, Bool.false_eq_true, if_false,
    Prom.handle_metrics_collection, Prom.record_metrics, bumpG_cancel]
  rfl

lemma red_dispatch_ok_observefault (mw : Middleware) (req : Request)
    (s duration : Nat) (e : String) (re : Option String) (st : MetricsState)
    (hR : mw.excluded_paths (RED.normalize_path req.path) = false) :
    RED.dispatch mw req (.ok s) duration ⟨none, some e, re⟩ st =
      ({ request_counter := bumpC st.request_counter
            ⟨req.method, s, RED.normalize_path req.path, mw.service_name⟩
         request_latency := st.request_latency
         error_counter := st.error_counter
         active_requests := st.active_requests },
       .error e,
       [.incGauge ⟨req.method, RED.normalize_path req.path, mw.service_name⟩,
        .callNext,
        .decGauge ⟨req.method, RED.normalize_path req.path, mw.service_name⟩,
        .incCounter ⟨req.method, s, RED.normalize_path req.path, mw.service_name⟩]) := by
  simp only [RED.dispatch, hR, Bool.false_eq_true, if_false,
    RED.record_metrics, bumpG_cancel]

/-- If the error-counter `inc()` call raises (status in the guard), the
request-counter increment and the histogram observation made before it are
retained, the gauge is still decremented, and the exception reaches the
caller. -/
lemma prom_dispatch_ok_errorfault (mw : Middleware) (req : Request)
    (s duration : Nat) (e : String) (st : MetricsState)
    (hP : mw.excluded_paths (Prom.normalize_path req.path) = false)
    (hs : 400 ≤ s) :
    Prom.dispatch mw req (.ok s) duration ⟨none, none, some e⟩ st =
      ({ request_counter := bumpC st.request_counter
            ⟨req.method, s, Prom.normalize_path req.path, mw.service_name⟩
         request_latency := bumpH st.request_latency
            ⟨req.method, s, Prom.normalize_path req.path, mw.service_name⟩ duration
         error_counter := st.error_counter
         active_requests := st.active_requests },
       .error e,
       [.incGauge ⟨req.method, Prom.normalize_path req.path, mw.service_name⟩,
        .callNext,
        .incCounter ⟨req.method, s, Prom.normalize_path req.path, mw.service_name⟩,
        .observe ⟨req.method, s, Prom.normalize_path req.path, mw.service_name⟩ duration,
        .decGauge ⟨req.method, Prom.normalize_path req.path, mw.service_name⟩]) := by
  simp only [Prom.dispatch, hP, Bool.false_eq_true, if_false,
    Prom.handle_metrics_collection, Prom.record_metrics, bumpG_cancel]
  simp [hs, bumpG_cancel]

lemma red_dispatch_ok_errorfault (mw : Middleware) (req : Request)
    (s duration : Nat) (e : String) (st : MetricsState)
    (hR : mw.excluded_paths (RED.normalize_path req.path) = false)
    (hs : 400 ≤ s ∧ s < 600) :
    RED.dispatch mw req (.ok s) duration ⟨none, none, some e⟩ st =
      ({ request_counter := bumpC st.request_counter
            ⟨req.method, s, RED.normalize_path req.path, mw.service_name⟩
         request_latency := bumpH st.request_latency
            ⟨req.method, s, RED.normalize_path req.path, mw.service_name⟩ duration
         error_counter := st.error_counter
         active_requests := st.active_requests },
       .error e,
       [.incGauge ⟨req.method, RED.normalize_path req.path, mw.service_name⟩,
        .callNext,
        .decGauge ⟨req.method, RED.normalize_path req.path, mw.service_name⟩,
        .incCounter ⟨req.method, s, RED.normalize_path req.path, mw.service_name⟩,
        .observe ⟨req.method, s, RED.normalize_path req.path, mw.service_name⟩ duration]) := by
  simp only [RED.dispatch, hR, Bool.false_eq_true, if_false,
    RED.record_metrics, bumpG_cancel]
  simp [hs, bumpG_cancel]

/-- C4 as amended: a fault raised while recording metrics is not caught — it
propagates to the caller in place of the handler's response, and the
`finally`-paired gauge decrement still runs; recording calls completed
before the faulting one keep their effect: a fault at the request-counter
increment retains nothing, a fault at the histogram observation retains the
counter increment, and a fault at the error-counter increment (status inside
the guard) retains the counter increment and the observation.  Only when
recording raises nothing does the client receive exactly the downstream
handler's response. -/
theorem claim_C4_amended (mw : Middleware) (req : Request) (s duration : Nat)
    (e : String) (st : MetricsState)
    (hP : mw.excluded_paths (Prom.normalize_path req.path) = false)
    (hR : mw.excluded_paths (RED.normalize_path req.path) = false) :
    ((Prom.dispatch mw req (.ok s) duration .fine st).2.1 = .ok s) ∧
    ((RED.dispatch mw req (.ok s) duration .fine st).2.1 = .ok s) ∧
    (∀ ro re : Option String,
      Prom.dispatch mw req (.ok s) duration ⟨some e, ro, re⟩ st =
        (st, .error e,
          [.incGauge ⟨req.method, Prom.normalize_path req.path, mw.service_name⟩,
           .callNext,
           .decGauge ⟨req.method, Prom.normalize_path req.path, mw.service_name⟩])) ∧
    (∀ ro re : Option String,
      RED.dispatch mw req (.ok s) duration ⟨some e, ro, re⟩ st =
        (st, .error e,
          [.incGauge ⟨req.method, RED.normalize_path req.path, mw.service_name⟩,
           .callNext,
           .decGauge ⟨req.method, RED.normalize_path req.path, mw.service_name⟩])) ∧
    (∀ re : Option String,
      Prom.dispatch mw req (.ok s) duration ⟨none, some e, re⟩ st =
        ({ request_counter := bumpC st.request_counter
              ⟨req.method, s, Prom.normalize_path req.path, mw.service_name⟩
           request_latency := st.request_latency
           error_counter := st.error_counter
           active_requests := st.active_requests },
         .error e,
         [.incGauge ⟨req.method, Prom.normalize_path req.path, mw.service_name⟩,
          .callNext,
          .incCounter ⟨req.method, s, Prom.normalize_path req.path, mw.service_name⟩,
          .decGauge ⟨req.method, Prom.normalize_path req.path, mw.service_name⟩])) ∧
    (∀ re : Option String,
      RED.dispatch mw req (.ok s) duration ⟨none, some e, re⟩ st =
        ({ request_counter := bumpC st.request_counter
              ⟨req.method, s, RED.normalize_path req.path, mw.service_name⟩
           request_latency := st.request_latency
           error_counter := st.error_counter
           active_requests := st.active_requests },
         .error e,
         [.incGauge ⟨req.method, RED.normalize_path req.path, mw.service_name⟩,
          .callNext,
          .decGauge ⟨req.method, RED.normalize_path req.path, mw.service_name⟩,
          .incCounter ⟨req.method, s, RED.normalize_path req.path, mw.service_name⟩])) ∧
    (400 ≤ s →
      Prom.dispatch mw req (.ok s) duration ⟨none, none, some e⟩ st =
        ({ request_counter := bumpC st.request_counter
              ⟨req.method, s, Prom.normalize_path req.path, mw.service_name⟩
           request_latency := bumpH st.request_latency
              ⟨req.method, s, Prom.normalize_path req.path, mw.service_name⟩ duration
           error_counter := st.error_counter
           active_requests := st.active_requests },
         .error e,
         [.incGauge ⟨req.method, Prom.normalize_path req.path, mw.service_name⟩,
          .callNext,
          .incCounter ⟨req.method, s, Prom.normalize_path req.path, mw.service_name⟩,
          .observe ⟨req.method, s, Prom.normalize_path req.path, mw.service_name⟩ duration,
          .decGauge ⟨req.method, Prom.normalize_path req.path, mw.service_name⟩])) ∧
    (400 ≤ s ∧ s < 600 →
      RED.dispatch mw req (.ok s) duration ⟨none, none, some e⟩ st =
        ({ request_counter := bumpC st.request_counter
              ⟨req.method, s, RED.normalize_path req.path, mw.service_name⟩
           request_latency := bumpH st.request_latency
              ⟨req.method, s, RED.normalize_path req.path, mw.service_name⟩ duration
           error_counter := st.error_counter
           active_requests := st.active_requests },
         .error e,
         [.incGauge ⟨req.method, RED.normalize_path req.path, mw.service_name⟩,
          .callNext,
          .decGauge ⟨req.method, RED.normalize_path req.path, mw.service_name⟩,
          .incCounter ⟨req.method, s, RED.normalize_path req.path, mw.service_name⟩,
          .observe ⟨req.method, s, RED.normalize_path req.path, mw.service_name⟩ duration])) := by
  refine ⟨?_, ?_, ?_, ?_, ?_, ?_, ?_, ?_⟩
  · rw [prom_dispatch_ok_fine mw req s duration st hP]
  · rw [red_dispatch_ok_fine mw req s duration st hR]
  · intro ro re
    exact prom_dispatch_ok_counterfault mw req s duration e ro re st hP
  · intro ro re
    exact red_dispatch_ok_counterfault mw req s duration e ro re st hR
  · intro re
    exact prom_dispatch_ok_observefault mw req s duration e re st hP
  · intro re
    exact red_dispatch_ok_observefault mw req s duration e re st hR
  · intro hs
    exact prom_dispatch_ok_errorfault mw req s duration e st hP hs
  · intro hs
    exact red_dispatch_ok_errorfault mw req s duration e st hR hs

/-- Witness for amended C4 at a concrete request (status 500, fault
`"boom"`): the handler's response is returned when recording is fine; a
counter-site fault retains nothing; an observe-site fault retains the
counter increment; an error-site fault retains the counter increment and
the observation — in each case the fault reaches the caller. -/
theorem claim_C4_witness :
    ((Prom.dispatch ⟨fun _ => false, "svc".toList⟩ ⟨"GET", "/x".toList⟩
        (.ok 500) 3 .fine zeroState).2.1 = .ok 500) ∧
    (Prom.dispatch ⟨fun _ => false, "svc".toList⟩ ⟨"GET", "/x".toList⟩
        (.ok 500) 3 ⟨some "boom", none, none⟩ zeroState =
      (zeroState, .error "boom",
        [.incGauge ⟨"GET", Prom.normalize_path "/x".toList, "svc".toList⟩,
         .callNext,
         .decGauge ⟨"GET", Prom.normalize_path "/x".toList, "svc".toList⟩])) ∧
    (Prom.dispatch ⟨fun _ => false, "svc".toList⟩ ⟨"GET", "/x".toList⟩
        (.ok 500) 3 ⟨none, some "boom", none⟩ zeroState =
      ({ request_counter := bumpC zeroState.request_counter
            ⟨"GET", 500, Prom.normalize_path "/x".toList, "svc".toList⟩
         request_latency := zeroState.request_latency
         error_counter := zeroState.error_counter
         active_requests := zeroState.active_requests },
       .error "boom",
       [.incGauge ⟨"GET", Prom.normalize_path "/x".toList, "svc".toList⟩,
        .callNext,
        .incCounter ⟨"GET", 500, Prom.normalize_path "/x".toList, "svc".toList⟩,
        .decGauge ⟨"GET", Prom.normalize_path "/x".toList, "svc".toList⟩])) ∧
    (Prom.dispatch ⟨fun _ => false, "svc".toList⟩ ⟨"GET", "/x".toList⟩
        (.ok 500) 3 ⟨none, none, some "boom"⟩ zeroState =
      ({ request_counter := bumpC zeroState.request_counter
            ⟨"GET", 500, Prom.normalize_path "/x".toList, "svc".toList⟩
         request_latency := bumpH zeroState.request_latency
            ⟨"GET", 500, Prom.normalize_path "/x".toList, "svc".toList⟩ 3
         error_counter := zeroState.error_counter
         active_requests := zeroState.active_requests },
       .error "boom",
       [.incGauge ⟨"GET", Prom.normalize_path "/x".toList, "svc".toList⟩,
        .callNext,
        .incCounter ⟨"GET", 500, Prom.normalize_path "/x".toList, "svc".toList⟩,
        .observe ⟨"GET", 500, Prom.normalize_path "/x".toList, "svc".toList⟩ 3,
        .decGauge ⟨"GET", Prom.normalize_path "/x".toList, "svc".toList⟩])) ∧
    (RED.dispatch ⟨fun _ => false, "svc".toList⟩ ⟨"GET", "/x".toList⟩
        (.ok 500) 3 ⟨none, some "boom", none⟩ zeroState =
      ({ request_counter := bumpC zeroState.request_counter
            ⟨"GET", 500, RED.normalize_path "/x".toList, "svc".toList⟩
         request_latency := zeroState.request_latency
         error_counter := zeroState.error_counter
         active_requests := zeroState.active_requests },
       .error "boom",
       [.incGauge ⟨"GET", RED.normalize_path "/x".toList, "svc".toList⟩,
        .callNext,
        .decGauge ⟨"GET", RED.normalize_path "/x".toList, "svc".toList⟩,
        .incCounter ⟨"GET", 500, RED.normalize_path "/x".toList, "svc".toList⟩])) :=
  ⟨(claim_C4_amended ⟨fun _ => false, "svc".toList⟩ ⟨"GET", "/x".toList⟩
      500 3 "boom" zeroState rfl rfl).1,
   (claim_C4_amended ⟨fun _ => false, "svc".toList⟩ ⟨"GET", "/x".toList⟩
      500 3 "boom" zeroState rfl rfl).2.2.1 none none,
   (claim_C4_amended ⟨fun _ => false, "svc".toList⟩ ⟨"GET", "/x".toList⟩
      500 3 "boom" zeroState rfl rfl).2.2.2.2.1 none,
   (claim_C4_amended ⟨fun _ => false, "svc".toList⟩ ⟨"GET", "/x".toList⟩
      500 3 "boom" zeroState rfl rfl).2.2.2.2.2.2.1 (by decide),
   (claim_C4_amended ⟨fun _ => false, "svc".toList⟩ ⟨"GET", "/x".toList⟩
      500 3 "boom" zeroState rfl rfl).2.2.2.2.2.1 none⟩

/-- C7: both path normalizers are idempotent — normalizing an
already-normalized path yields the same string. -/
theorem claim_C7 (p : List Char) :
    Prom.normalize_path (Prom.normalize_path p) = Prom.normalize_path p ∧
      RED.normalize_path (RED.normalize_path p) = RED.normalize_path p :=
  ⟨goUUID_idem p, goDig_idem p⟩

/-- Counterexample to C5 as stated: the UUID pattern of `metrics.py` is not
anchored to a whole segment.  The segment `aaaaaaaa-aaaa-aaaa-aaaa-aaaaaaaaaaaaZ`
is not identifier-shaped under either policy (37 characters, not the
canonical 8-4-4-4-12 shape, and containing no digit), so the claim requires
the path to be returned unchanged, yet the normalizer rewrites its UUID-shaped
prefix, producing `/a/:idZ`. -/
theorem claim_C5_counterexample :
    isUUID "aaaaaaaa-aaaa-aaaa-aaaa-aaaaaaaaaaaaZ".toList = false ∧
      ("aaaaaaaa-aaaa-aaaa-aaaa-aaaaaaaaaaaaZ".toList).any Char.isDigit = false ∧
      Prom.normalize_path "/a/aaaaaaaa-aaaa-aaaa-aaaa-aaaaaaaaaaaaZ".toList
        = "/a/:idZ".toList ∧
      Prom.normalize_path "/a/aaaaaaaa-aaaa-aaaa-aaaa-aaaaaaaaaaaaZ".toList
        ≠ "/a/aaaaaaaa-aaaa-aaaa-aaaa-aaaaaaaaaaaaZ".toList := by
  exact ⟨by decide, by decide, by decide, by decide⟩

/-- C5 as amended: on a path `/s1/.../sn` of slash-free segments, the
`metrics.py` normalizer replaces, in each segment that *starts with* the
36-character UUID shape, that prefix by `:id` (keeping any remainder of the
segment), and the `metrics_scratch.py` normalizer replaces each segment
containing at least one digit by `:id`; all other segments are preserved
verbatim in order, and a path with no such segment is returned unchanged. -/
theorem claim_C5_amended (segs : List (List Char)) (h : ∀ s ∈ segs, '/' ∉ s) :
    Prom.normalize_path (joinSlash segs) = joinSlash (segs.map uuidSegMap) ∧
      RED.normalize_path (joinSlash segs) = joinSlash (segs.map digitSegMap) ∧
      ((∀ s ∈ segs, matchesShape uuidShape s = false) →
        Prom.normalize_path (joinSlash segs) = joinSlash segs) ∧
      ((∀ s ∈ segs, s.any Char.isDigit = false) →
        RED.normalize_path (joinSlash segs) = joinSlash segs) := by
  refine ⟨goUUID_joinSlash segs h, goDig_joinSlash segs h, ?_, ?_⟩
  · intro hno
    show goUUID 0 (joinSlash segs) = joinSlash segs
    rw [goUUID_joinSlash segs h]
    have hmap : segs.map uuidSegMap = segs := by
      induction segs with
      | nil => rfl
      | cons s rest ih =>
        rw [List.map_cons, uuidSegMap, if_neg]
        · rw [ih (fun u hu => h u (List.mem_cons_of_mem _ hu))
            (fun u hu => hno u (List.mem_cons_of_mem _ hu))]
        · rw [hno s (List.mem_cons_self _ _)]
          exact Bool.false_ne_true
    rw [hmap]
  · intro hno
    show goDig false (joinSlash segs) = joinSlash segs
    rw [goDig_joinSlash segs h]
    have hmap : segs.map digitSegMap = segs := by
      induction segs with
      | nil => rfl
      | cons s rest ih =>
        rw [List.map_cons, digitSegMap, if_neg]
        · rw [ih (fun u hu => h u (List.mem_cons_of_mem _ hu))
            (fun u hu => hno u (List.mem_cons_of_mem _ hu))]
        · rw [hno s (List.mem_cons_self _ _)]
          exact Bool.false_ne_true
    rw [hmap]

/-- Witness for amended C5 on the segments `api`, `15ca...b04`, `x9`. -/
theorem claim_C5_witness :
    Prom.normalize_path
        (joinSlash ["api".toList, "15ca8c18-43d4-4da3-ad14-2dc127365b04".toList, "x9".toList])
      = joinSlash (["api".toList, "15ca8c18-43d4-4da3-ad14-2dc127365b04".toList,
          "x9".toList].map uuidSegMap) ∧
      RED.normalize_path
          (joinSlash ["api".toList, "15ca8c18-43d4-4da3-ad14-2dc127365b04".toList, "x9".toList])
        = joinSlash (["api".toList, "15ca8c18-43d4-4da3-ad14-2dc127365b04".toList,
            "x9".toList].map digitSegMap) :=
  ⟨(claim_C5_amended _ (by decide)).1, (claim_C5_amended _ (by decide)).2.1⟩

/-- Counterexample to C6 as stated: under the `metrics_scratch.py` policy the
paths `/api/v1/products/<id>` do not normalize to `/api/v1/products/:id` at
all — the `v1` segment contains a digit and is also collapsed — so two
distinct identifiers land on `/api/:id/products/:id` instead. -/
theorem claim_C6_counterexample :
    RED.normalize_path "/api/v1/products/15ca8c18-43d4-4da3-ad14-2dc127365b04".toList
      = "/api/:id/products/:id".toList ∧
      RED.normalize_path "/api/v1/products/25ca8c18-43d4-4da3-ad14-2dc127365b04".toList
        = "/api/:id/products/:id".toList ∧
      ("/api/:id/products/:id".toList : List Char) ≠ "/api/v1/products/:id".toList := by
  exact ⟨by decide, by decide, by decide⟩

lemma prom_normalize_products {a : List Char} (ha : isUUID a = true) :
    Prom.normalize_path ("/api/v1/products/".toList ++ a)
      = "/api/v1/products/:id".toList := by
  have ha' : a.length = 36 ∧ matchesShape uuidShape a = true := by
    simpa [isUUID] using ha
  have hsegs : ∀ s ∈ ["api".toList, "v1".toList, "products".toList, a], '/' ∉ s := by
    intro s hs
    simp only [List.mem_cons, List.not_mem_nil, or_false] at hs
    rcases hs with rfl | rfl | rfl | rfl
    · decide
    · decide
    · decide
    · exact isUUID_no_slash ha
  have hjoin : ("/api/v1/products/".toList ++ a : List Char)
      = joinSlash ["api".toList, "v1".toList, "products".toList, a] := by
    simp [joinSlash]
  rw [hjoin]
  show goUUID 0 _ = _
  rw [goUUID_joinSlash _ hsegs]
  simp only [List.map_cons, List.map_nil]
  rw [show uuidSegMap "api".toList = "api".toList from by decide,
    show uuidSegMap "v1".toList = "v1".toList from by decide,
    show uuidSegMap "products".toList = "products".toList from by decide,
    uuidSegMap, if_pos ha'.2, isUUID_drop ha]
  decide

lemma red_normalize_products {s : List Char} (hs : '/' ∉ s)
    (hd : s.any Char.isDigit = true) :
    RED.normalize_path ("/api/v1/products/".toList ++ s)
      = "/api/:id/products/:id".toList := by
  have hsegs : ∀ u ∈ ["api".toList, "v1".toList, "products".toList, s], '/' ∉ u := by
    intro u hu
    simp only [List.mem_cons, List.not_mem_nil, or_false] at hu
    rcases hu with rfl | rfl | rfl | rfl
    · decide
    · decide
    · decide
    · exact hs
  have hjoin : ("/api/v1/products/".toList ++ s : List Char)
      = joinSlash ["api".toList, "v1".toList, "products".toList, s] := by
    simp [joinSlash]
  rw [hjoin]
  show goDig false _ = _
  rw [goDig_joinSlash _ hsegs]
  simp only [List.map_cons, List.map_nil]
  rw [show digitSegMap "api".toList = "api".toList from by decide,
    show digitSegMap "v1".toList = [':', 'i', 'd'] from by decide,
    show digitSegMap "products".toList = "products".toList from by decide,
    digitSegMap, if_pos hd]
  decide

/-- C6 as amended: two distinct identifiers on the products route collapse
into one common template per middleware — under `metrics.py` (for canonical
UUID values) both paths normalize to `/api/v1/products/:id`, and under
`metrics_scratch.py` (for digit-containing segment values) both normalize to
`/api/:id/products/:id` (the `v1` segment is collapsed as well) — so in each
middleware both requests accumulate into one label tuple. -/
theorem claim_C6_amended (a b : List Char) (_hab : a ≠ b)
    (ha : isUUID a = true) (hb : isUUID b = true)
    (s t : List Char) (_hst : s ≠ t)
    (hs : '/' ∉ s) (hsd : s.any Char.isDigit = true)
    (ht : '/' ∉ t) (htd : t.any Char.isDigit = true) :
    (Prom.normalize_path ("/api/v1/products/".toList ++ a)
        = "/api/v1/products/:id".toList ∧
      Prom.normalize_path ("/api/v1/products/".toList ++ b)
        = "/api/v1/products/:id".toList) ∧
    (RED.normalize_path ("/api/v1/products/".toList ++ s)
        = "/api/:id/products/:id".toList ∧
      RED.normalize_path ("/api/v1/products/".toList ++ t)
        = "/api/:id/products/:id".toList) :=
  ⟨⟨prom_normalize_products ha, prom_normalize_products hb⟩,
   ⟨red_normalize_products hs hsd, red_normalize_products ht htd⟩⟩

/-- Witness for amended C6 on two concrete UUIDs and two concrete numeric
identifiers. -/
theorem claim_C6_witness :
    (Prom.normalize_path
        ("/api/v1/products/".toList ++ "15ca8c18-43d4-4da3-ad14-2dc127365b04".toList)
        = "/api/v1/products/:id".toList ∧
      Prom.normalize_path
          ("/api/v1/products/".toList ++ "25ca8c18-43d4-4da3-ad14-2dc127365b04".toList)
        = "/api/v1/products/:id".toList) ∧
    (RED.normalize_path ("/api/v1/products/".toList ++ "123".toList)
        = "/api/:id/products/:id".toList ∧
      RED.normalize_path ("/api/v1/products/".toList ++ "456".toList)
        = "/api/:id/products/:id".toList) :=
  claim_C6_amended "15ca8c18-43d4-4da3-ad14-2dc127365b04".toList
    "25ca8c18-43d4-4da3-ad14-2dc127365b04".toList (by decide) (by decide) (by decide)
    "123".toList "456".toList (by decide) (by decide) (by decide) (by decide) (by decide)

/-! ### C9: the service label -/

/-- Collapse every maximal run of whitespace to a single hyphen (one reading
of the claim's "whitespace collapsed to hyphens"; under the other reading —
each whitespace character becomes a hyphen — the same counterexample below
applies, since a tab is whitespace either way). -/
def collapseWsGo : Bool → List Char → List Char
  | _, [] => []
  | inWs, c :: rest =>
    if c.isWhitespace then
      if inWs then collapseWsGo true rest
      else '-' :: collapseWsGo true rest
    else c :: collapseWsGo false rest

/-- Modelled from the claim's words, for comparison with
`format_service_name`: service name lower-cased with whitespace collapsed to
hyphens, then `--`, then the environment lower-cased. -/
def service_label_claim (appName appEnv : List Char) : List Char :=
  collapseWsGo false (appName.map Char.toLower)
    ++ '-' :: '-' :: appEnv.map Char.toLower

/-- Counterexample to C9 as stated: the code runs
`APP_NAME.lower().replace(" ", "-")`, which touches only the space character
U+0020, not whitespace generally — a tab passes through unchanged, where the
claim demands a hyphen. -/
theorem claim_C9_counterexample :
    format_service_name "a\tb".toList "E".toList = "a\tb--e".toList ∧
      service_label_claim "a\tb".toList "E".toList = "a-b--e".toList ∧
      format_service_name "a\tb".toList "E".toList
        ≠ service_label_claim "a\tb".toList "E".toList := by
  exact ⟨by decide, by decide, by decide⟩

lemma toLower_ne_space {c : Char} (hc : c ≠ ' ') : Char.toLower c ≠ ' ' := by
  by_cases h : c.toNat ≥ 65 ∧ c.toNat ≤ 90
  · have hres : Char.toLower c = Char.ofNat (c.toNat + 32) := by
      rw [Char.toLower, if_pos h]
    rw [hres]
    obtain ⟨h1, h2⟩ := h
    set n := c.toNat with hn
    clear hn hres hc
    interval_cases n <;> decide
  · rw [Char.toLower, if_neg h]
    exact hc

/-- Lower-casing commutes with replacing spaces by hyphens. -/
lemma lower_repl_comm (c : Char) :
    (if Char.toLower c = ' ' then '-' else Char.toLower c)
      = Char.toLower (if c = ' ' then '-' else c) := by
  by_cases hc : c = ' '
  · subst hc; decide
  · rw [if_neg hc, if_neg (toLower_ne_space hc)]

/-- The service value carried by a metric event, if any. -/
def evService : MetricEv → Option (List Char)
  | .incGauge t => some t.service
  | .decGauge t => some t.service
  | .callNext => none
  | .incCounter t => some t.service
  | .observe t _ => some t.service
  | .incError t => some t.service

lemma prom_record_metrics_service (svc : List Char) (method : String)
    (endpoint : List Char) (status duration : Nat) (rb : RecBehavior)
    (st : MetricsState) :
    ∀ ev ∈ (Prom.record_metrics svc method endpoint status duration rb st).2.1,
      ∀ sv, evService ev = some sv → sv = svc := by
  rcases rb with ⟨_ | rc, _ | ro, _ | re⟩ <;>
    simp [Prom.record_metrics] <;>
    first
      | (split <;> simp [evService])
      | simp [evService]

lemma red_record_metrics_service (svc : List Char) (method : String)
    (endpoint : List Char) (status duration : Nat) (rb : RecBehavior)
    (st : MetricsState) :
    ∀ ev ∈ (RED.record_metrics svc method endpoint status duration rb st).2.1,
      ∀ sv, evService ev = some sv → sv = svc := by
  rcases rb with ⟨_ | rc, _ | ro, _ | re⟩ <;>
    simp [RED.record_metrics] <;>
    first
      | (split <;> simp [evService])
      | simp [evService]

lemma prom_dispatch_service (mw : Middleware) (req : Request)
    (outcome : Outcome) (duration : Nat) (rb : RecBehavior) (st : MetricsState) :
    ∀ ev ∈ (Prom.dispatch mw req outcome duration rb st).2.2,
      ∀ sv, evService ev = some sv → sv = mw.service_name := by
  by_cases hx : mw.excluded_paths (Prom.normalize_path req.path) = true
  · simp [Prom.dispatch, hx, evService]
  · have hx' := Bool.eq_false_iff.mpr hx
    cases outcome with
    | fault e =>
      rw [prom_dispatch_fault mw req e duration rb st hx']
      intro ev hev sv hsv
      simp only [List.mem_cons, List.mem_singleton, List.not_mem_nil, or_false] at hev
      rcases hev with rfl | rfl | rfl
      · simp [evService] at hsv; exact hsv.symm
      · simp [evService] at hsv
      · simp [evService] at hsv; exact hsv.symm
    | ok s =>
      simp only [Prom.dispatch, hx', Bool.false_eq_true, if_false,
        Prom.handle_metrics_collection]
      intro ev hev sv hsv
      rcases List.mem_cons.mp hev with rfl | hev2
      · simp [evService] at hsv; exact hsv.symm
      rcases List.mem_cons.mp hev2 with rfl | hev3
      · simp [evService] at hsv
      rcases List.mem_append.mp hev3 with hev4 | hev5
      · exact prom_record_metrics_service _ _ _ _ _ _ _ ev hev4 sv hsv
      · rcases List.mem_singleton.mp hev5 with rfl
        simp [evService] at hsv; exact hsv.symm

lemma red_dispatch_service (mw : Middleware) (req : Request)
    (outcome : Outcome) (duration : Nat) (rb : RecBehavior) (st : MetricsState) :
    ∀ ev ∈ (RED.dispatch mw req outcome duration rb st).2.2,
      ∀ sv, evService ev = some sv → sv = mw.service_name := by
  by_cases hx : mw.excluded_paths (RED.normalize_path req.path) = true
  · simp [RED.dispatch, hx, evService]
  · have hx' := Bool.eq_false_iff.mpr hx
    cases outcome with
    | fault e =>
      rw [red_dispatch_fault mw req e duration rb st hx']
      intro ev hev sv hsv
      simp only [List.mem_cons, List.mem_singleton, List.not_mem_nil, or_false] at hev
      rcases hev with rfl | rfl | rfl
      · simp [evService] at hsv; exact hsv.symm
      · simp [evService] at hsv
      · simp [evService] at hsv; exact hsv.symm
    | ok s =>
      simp only [RED.dispatch, hx', Bool.false_eq_true, if_false]
      intro ev hev sv hsv
      rcases List.mem_cons.mp hev with rfl | hev2
      · simp [evService] at hsv; exact hsv.symm
      rcases List.mem_cons.mp hev2 with rfl | hev3
      · simp [evService] at hsv
      rcases List.mem_cons.mp hev3 with rfl | hev4
      · simp [evService] at hsv; exact hsv.symm
      · exact red_record_metrics_service _ _ _ _ _ _ _ ev hev4 sv hsv

/-- C9 as amended: the service label equals the service name lower-cased
with each space character replaced by a hyphen (replacement and lower-casing
commute), joined by `--` to the environment lower-cased; it is computed once
at construction, and every labelled metric operation either middleware ever
performs carries exactly that stored label. -/
theorem claim_C9_amended (n e : List Char) :
    (format_service_name n e
      = (n.map (fun c => if c = ' ' then '-' else c)).map Char.toLower
        ++ '-' :: '-' :: e.map Char.toLower) ∧
    (∀ (ex : List Char → Bool) (req : Request) (outcome : Outcome)
        (duration : Nat) (rb : RecBehavior) (st : MetricsState),
      (∀ ev ∈ (Prom.dispatch ⟨ex, format_service_name n e⟩ req outcome duration rb st).2.2,
        ∀ sv, evService ev = some sv → sv = format_service_name n e) ∧
      (∀ ev ∈ (RED.dispatch ⟨ex, format_service_name n e⟩ req outcome duration rb st).2.2,
        ∀ sv, evService ev = some sv → sv = format_service_name n e)) := by
  constructor
  · rw [format_service_name]
    have hmap : ∀ m : List Char,
        (m.map Char.toLower).map (fun c => if c = ' ' then '-' else c)
          = (m.map (fun c => if c = ' ' then '-' else c)).map Char.toLower := by
      intro m
      induction m with
      | nil => rfl
      | cons c cs ih =>
        simp only [List.map_cons, List.cons.injEq]
        exact ⟨lower_repl_comm c, ih⟩
    rw [hmap n]
  · intro ex req outcome duration rb st
    exact ⟨prom_dispatch_service ⟨ex, format_service_name n e⟩ req outcome duration rb st,
      red_dispatch_service ⟨ex, format_service_name n e⟩ req outcome duration rb st⟩
